import Mathlib

/-!
# go-chat: the real-time message hub

A shallow embedding of `internal/services/hub/hub.go`,
`internal/services/hub/connection.go` and the envelope types of
`internal/models/models.go`, followed by theorems about the hub loop
(`Hub.Run`), `Client.SendMessage` and the two connection pumps.

Modelling conventions

* A `*Client` is a record of its immutable fields plus `addr`, the identity of
  the allocation; two clients are the same pointer iff the records are equal.
* Every client owns the channel created with it (`Send: make(chan []byte, n)`
  in `handlers/websocket.go`); the channels live in `HubState.Send`, keyed by
  the client.
* A Go channel is its buffer, its capacity and its closed flag.  Sending on a
  closed channel and closing a closed channel panic; a panic is the `error`
  side of `Except Panic`.
* `map[*Client]bool` is a duplicate-free list of clients; `range` visits the
  list in order.
* `json.Marshal` belongs to the standard library and is a parameter
  `marshal : WebSocketMessage → Except String Bytes`.
-/

namespace GoChat

/-! ## models.go -/

/-- A `[]byte` value. -/
abbrev Bytes := List Nat

/-- A `time.Time` value, as nanoseconds. -/
abbrev Time := Int

/-- The struct `models.Message`. -/
structure Message where
  ID : Int
  RoomID : Int
  UserID : Int
  Username : String
  Content : String
  CreatedAt : Time
deriving DecidableEq, Repr

/-- The struct `models.WebSocketMessage`; the pointer field `Message` is an option and
the field `Type` is written `Typ`. -/
structure WebSocketMessage where
  Typ : String
  RoomID : Int
  Message : Option Message
  Content : String
  Error : String
  UserID : Int
  Username : String
deriving DecidableEq, Repr

/-- The zero value of `models.WebSocketMessage`. -/
def WebSocketMessage.zero : WebSocketMessage :=
  { Typ := "", RoomID := 0, Message := none, Content := "", Error := "", UserID := 0, Username := "" }

/-! ## Go channels -/

/-- The two run-time panics a channel operation can raise. -/
inductive Panic where
  | sendOnClosedChannel
  | closeOfClosedChannel
deriving DecidableEq, Repr

/-- A buffered channel of `[]byte`: queued payloads (oldest first), capacity, closed flag. -/
structure Chan where
  buf : List Bytes
  cap : Nat
  closed : Bool
deriving DecidableEq, Repr

/-- The channel `make(chan []byte, cap)`. -/
def Chan.make (cap : Nat) : Chan :=
  { buf := [], cap := cap, closed := false }

/-- The statement `close(ch)`. -/
def Chan.close (ch : Chan) : Except Panic Chan :=
  if ch.closed then .error .closeOfClosedChannel
  else .ok { ch with closed := true }

/-- The non-blocking send `select { case ch <- v: ... default: ... }`:
`some` is the channel after the send, `none` is the default branch. -/
def Chan.trySend (ch : Chan) (v : Bytes) : Except Panic (Option Chan) :=
  if ch.closed then .error .sendOnClosedChannel
  else if ch.buf.length < ch.cap then .ok (some { ch with buf := ch.buf ++ [v] })
  else .ok none

/-! ## hub.go: data -/

/-- The struct `Client`, without the back pointers `Hub` and `Conn`; `addr` is the
identity of the allocation and `Send` is held in `HubState.Send`. -/
structure Client where
  RoomID : Int
  UserID : Int
  Username : String
  addr : Nat
deriving DecidableEq, Repr

/-- The struct `BroadcastMessage`; a nil `Sender` is `none`. -/
structure BroadcastMessage where
  RoomID : Int
  Message : Bytes
  Sender : Option Client
deriving DecidableEq, Repr

/-- A value of type `map[*Client]bool`: the clients that are keys of the map. -/
structure ClientSet where
  elems : List Client
  nodup : elems.Nodup

/-- The map `make(map[*Client]bool)`. -/
def ClientSet.empty : ClientSet :=
  { elems := [], nodup := List.nodup_nil }

/-- The assignment `clients[client] = true`. -/
def ClientSet.insert (cs : ClientSet) (client : Client) : ClientSet :=
  if h : client ∈ cs.elems then cs
  else { elems := cs.elems ++ [client],
         nodup := List.Nodup.append cs.nodup (List.nodup_singleton client)
           (by
             intro x hx hx1
             rw [List.mem_singleton] at hx1
             exact h (hx1 ▸ hx)) }

/-- The statement `delete(clients, client)`. -/
def ClientSet.erase (cs : ClientSet) (client : Client) : ClientSet :=
  { elems := cs.elems.erase client, nodup := cs.nodup.erase client }

/-- The expression `len(clients)`. -/
def ClientSet.len (cs : ClientSet) : Nat :=
  cs.elems.length

/-- The state the hub loop works on: the field `rooms` of `Hub` and the `Send`
channel of every client. -/
structure HubState where
  rooms : Int → Option ClientSet
  Send : Client → Chan

/-- The assignment `h.rooms[roomID] = v`, and `delete(h.rooms, roomID)` when `v` is `none`. -/
def setRoom (rooms : Int → Option ClientSet) (roomID : Int) (v : Option ClientSet) :
    Int → Option ClientSet :=
  fun r => if r = roomID then v else rooms r

/-- The channel of `client` replaced by `ch`. -/
def setSend (send : Client → Chan) (client : Client) (ch : Chan) : Client → Chan :=
  fun c => if c = client then ch else send c

/-- The hub `NewHub()` together with clients whose channels were made with capacity `caps`. -/
def NewHub (caps : Client → Nat) : HubState :=
  { rooms := fun _ => none, Send := fun c => Chan.make (caps c) }

/-! ## hub.go: the cases of `Hub.Run` -/

/-- The envelope `joinMsg` built in the register case. -/
def joinMsg (client : Client) : WebSocketMessage :=
  { WebSocketMessage.zero with
    Typ := "join", RoomID := client.RoomID, UserID := client.UserID, Username := client.Username }

/-- The envelope `leaveMsg` built in the unregister case. -/
def leaveMsg (client : Client) : WebSocketMessage :=
  { WebSocketMessage.zero with
    Typ := "leave", RoomID := client.RoomID, UserID := client.UserID, Username := client.Username }

/-- The method `Hub.BroadcastToRoom`: its body is empty. -/
def BroadcastToRoom (s : HubState) (_roomID : Int) (_message : WebSocketMessage)
    (_excludeClient : Option Client) : HubState :=
  s

/-- The register case of `Hub.Run`. -/
def registerStep (s : HubState) (client : Client) : HubState :=
  let clients : ClientSet :=
    match s.rooms client.RoomID with
    | none => ClientSet.empty
    | some cs => cs
  let s1 : HubState :=
    { s with rooms := setRoom s.rooms client.RoomID (some (clients.insert client)) }
  BroadcastToRoom s1 client.RoomID (joinMsg client) none

/-- The part of the unregister case that runs with the mutex held. -/
def unregisterLocked (s : HubState) (client : Client) : Except Panic HubState :=
  match s.rooms client.RoomID with
  | some clients =>
    if client ∈ clients.elems then
      let clients1 := clients.erase client
      match (s.Send client).close with
      | .error e => .error e
      | .ok ch =>
        if clients1.len = 0 then
          .ok { rooms := setRoom s.rooms client.RoomID none, Send := setSend s.Send client ch }
        else
          .ok { rooms := setRoom s.rooms client.RoomID (some clients1),
                Send := setSend s.Send client ch }
    else .ok s
  | none => .ok s

/-- The unregister case of `Hub.Run`. -/
def unregisterStep (s : HubState) (client : Client) : Except Panic HubState :=
  match unregisterLocked s client with
  | .error e => .error e
  | .ok s1 => .ok (BroadcastToRoom s1 client.RoomID (leaveMsg client) none)

/-- The body of the loop `for client := range clients` of the broadcast case, on
the room's map and the channels. -/
def broadcastClient (msg : BroadcastMessage) (st : ClientSet × (Client → Chan))
    (client : Client) : Except Panic (ClientSet × (Client → Chan)) :=
  if msg.Sender = some client then .ok st
  else
    match (st.2 client).trySend msg.Message with
    | .error e => .error e
    | .ok (some ch) => .ok (st.1, setSend st.2 client ch)
    | .ok none =>
      match (st.2 client).close with
      | .error e => .error e
      | .ok ch => .ok (st.1.erase client, setSend st.2 client ch)

/-- The loop `for client := range clients` over the keys still to visit. -/
def broadcastLoop (msg : BroadcastMessage) :
    List Client → ClientSet × (Client → Chan) → Except Panic (ClientSet × (Client → Chan))
  | [], st => .ok st
  | client :: rest, st =>
    match broadcastClient msg st client with
    | .error e => .error e
    | .ok st1 => broadcastLoop msg rest st1

/-- The broadcast case of `Hub.Run`. -/
def broadcastStep (s : HubState) (msg : BroadcastMessage) : Except Panic HubState :=
  match s.rooms msg.RoomID with
  | some clients =>
    match broadcastLoop msg clients.elems (clients, s.Send) with
    | .error e => .error e
    | .ok st => .ok { rooms := setRoom s.rooms msg.RoomID (some st.1), Send := st.2 }
  | none => .ok s

/-- The method `Hub.GetRoomClients`. -/
def GetRoomClients (s : HubState) (roomID : Int) : List Client :=
  match s.rooms roomID with
  | some roomClients => roomClients.elems
  | none => []

/-- The method `Hub.GetRoomClientCount`. -/
def GetRoomClientCount (s : HubState) (roomID : Int) : Nat :=
  match s.rooms roomID with
  | some clients => clients.len
  | none => 0

/-! ## connection.go -/

/-- The method `Client.SendMessage`; the second component is the returned `error`
(`none` is `nil`). -/
def SendMessage (marshal : WebSocketMessage → Except String Bytes) (s : HubState) (c : Client)
    (msg : WebSocketMessage) : Except Panic (HubState × Option String) :=
  match marshal msg with
  | .error err => .ok (s, some err)
  | .ok data =>
    match (s.Send c).trySend data with
    | .error e => .error e
    | .ok (some ch) => .ok ({ s with Send := setSend s.Send c ch }, none)
    | .ok none =>
      match (s.Send c).close with
      | .error e => .error e
      | .ok ch => .ok ({ s with Send := setSend s.Send c ch }, none)

/-- The function `saveMessageToDB` of `handlers/websocket.go`: `db` is the
`INSERT ... RETURNING id` query on room id, user id, content and creation time, and a
returned id is scanned into `msg.ID`. -/
def saveMessageToDB (db : Int → Int → String → Time → Option Int) (msg : Message) :
    Except String Message :=
  match db msg.RoomID msg.UserID msg.Content msg.CreatedAt with
  | some id => .ok { msg with ID := id }
  | none => .error "sql: query failed"

/-- What one iteration of the read loop did: the state of the channels afterwards, the
messages handed to `saveMessage`, and the requests put on `h.broadcast` by `Hub.Broadcast`. -/
structure PumpResult where
  state : HubState
  stored : List Message
  submitted : List BroadcastMessage

/-- The envelope `errorMsg` of `Client.ReadPump`. -/
def errorMsg : WebSocketMessage :=
  { WebSocketMessage.zero with Typ := "error", Error := "Failed to save message" }

/-- One iteration of the loop of `Client.ReadPump` after `ReadJSON` returned `wsMsg`
without error, at time `now`.  Every branch ends the iteration and goes on reading. -/
def readPumpEvent (saveMessage : Message → Except String Message)
    (marshal : WebSocketMessage → Except String Bytes) (now : Time)
    (s : HubState) (c : Client) (wsMsg : WebSocketMessage) : Except Panic PumpResult :=
  if wsMsg.Typ = "message" then
    let msg : Message :=
      { ID := 0, RoomID := c.RoomID, UserID := c.UserID, Username := c.Username,
        Content := wsMsg.Content, CreatedAt := now }
    match saveMessage msg with
    | .error _ =>
      match SendMessage marshal s c errorMsg with
      | .error e => .error e
      | .ok r => .ok { state := r.1, stored := [msg], submitted := [] }
    | .ok msg1 =>
      let broadcastMsg : WebSocketMessage :=
        { WebSocketMessage.zero with Typ := "message", RoomID := c.RoomID, Message := some msg1 }
      match marshal broadcastMsg with
      | .error _ => .ok { state := s, stored := [msg], submitted := [] }
      | .ok messageBytes =>
        .ok { state := s, stored := [msg],
              submitted := [{ RoomID := c.RoomID, Message := messageBytes, Sender := none }] }
  else .ok { state := s, stored := [], submitted := [] }

/-- The receive `<-ch` when a payload is queued. -/
def Chan.recv (ch : Chan) : Option (Bytes × Chan) :=
  match ch.buf with
  | [] => none
  | m :: rest => some (m, { ch with buf := rest })

/-- The loop `for i := 0; i < n; i++` of `Client.WritePump`: each round writes the byte
of the newline and the next queued payload to the frame `w`. -/
def drainLoop : Nat → Chan → Bytes → Bytes × Chan
  | 0, ch, w => (w, ch)
  | n + 1, ch, w =>
    match ch.recv with
    | some (m, ch1) => drainLoop n ch1 (w ++ [10] ++ m)
    | none => drainLoop n ch (w ++ [10])

/-- What the write pump puts on the transport in one round. -/
inductive Frame where
  | text (data : Bytes)
  | closeMessage
deriving DecidableEq, Repr

/-- One round of the case `message, ok := <-c.Send` of `Client.WritePump` with a working
transport, taken while no other goroutine acts: the frame written and whether the loop
goes on; `none` when the receive blocks (open channel, nothing queued). -/
def writePumpRecv (s : HubState) (c : Client) : Option (HubState × Frame × Bool) :=
  match (s.Send c).recv with
  | some (message, ch) =>
    let r := drainLoop ch.buf.length ch message
    some ({ s with Send := setSend s.Send c r.2 }, Frame.text r.1, true)
  | none =>
    if (s.Send c).closed then some (s, Frame.closeMessage, false)
    else none

/-! ## Runs -/

/-- One thing that happens to the hub state: a request taken by the hub loop, a call of
`Client.SendMessage`, or a round of a write pump. -/
inductive Action where
  | register (c : Client)
  | unregister (c : Client)
  | broadcast (msg : BroadcastMessage)
  | sendMessage (c : Client) (msg : WebSocketMessage)
  | writePump (c : Client)
deriving DecidableEq, Repr

/-- The effect of one action; a write pump that would block leaves the state as it is. -/
def applyAction (marshal : WebSocketMessage → Except String Bytes) (s : HubState) :
    Action → Except Panic HubState
  | .register c => .ok (registerStep s c)
  | .unregister c => unregisterStep s c
  | .broadcast msg => broadcastStep s msg
  | .sendMessage c msg =>
    match SendMessage marshal s c msg with
    | .error e => .error e
    | .ok r => .ok r.1
  | .writePump c =>
    match writePumpRecv s c with
    | some r => .ok r.1
    | none => .ok s

/-- The actions of a list applied in order; the run stops at the first panic. -/
def runActions (marshal : WebSocketMessage → Except String Bytes) :
    List Action → HubState → Except Panic HubState
  | [], s => .ok s
  | a :: rest, s =>
    match applyAction marshal s a with
    | .error e => .error e
    | .ok s1 => runActions marshal rest s1

/-- The state after a run, or the starting state when the run panicked. -/
def afterRun (marshal : WebSocketMessage → Except String Bytes) (actions : List Action)
    (s : HubState) : HubState :=
  match runActions marshal actions s with
  | .ok s1 => s1
  | .error _ => s

/-- The panic a result stands for, if any. -/
def panicOf {α : Type} : Except Panic α → Option Panic
  | .error e => some e
  | .ok _ => none

/-- The queue of client `c` after a run: `none` when the run panicked. -/
def queueAfter (r : Except Panic HubState) (c : Client) : Option Chan :=
  match r with
  | .error _ => none
  | .ok s => some (s.Send c)

/-- The clients of room `roomID` after a run: `none` when the run panicked. -/
def membersAfter (r : Except Panic HubState) (roomID : Int) : Option (List Client) :=
  match r with
  | .error _ => none
  | .ok s => some (GetRoomClients s roomID)

/-- What one visit of the broadcast loop does to an open channel: the payload is appended
when there is room, and the channel is closed otherwise. -/
def deliver (p : Bytes) (ch : Chan) : Chan :=
  if ch.buf.length < ch.cap then { ch with buf := ch.buf ++ [p] }
  else { ch with closed := true }

/-! ## Requests on one room and their replay on a plain set -/

/-- A membership request taken by the hub loop. -/
inductive Request where
  | register (c : Client)
  | unregister (c : Client)
deriving DecidableEq, Repr

/-- The client a request is about. -/
def Request.client : Request → Client
  | .register c => c
  | .unregister c => c

/-- The hub loop taking one membership request. -/
def applyRequest (s : HubState) : Request → Except Panic HubState
  | .register c => .ok (registerStep s c)
  | .unregister c => unregisterStep s c

/-- The hub loop taking the requests of a list in submission order. -/
def runRequests : List Request → HubState → Except Panic HubState
  | [], s => .ok s
  | q :: rest, s =>
    match applyRequest s q with
    | .error e => .error e
    | .ok s1 => runRequests rest s1

/-- The replay of the spec: the requests applied in order to a plain set, insert on
register and remove on unregister. -/
def replaySet : List Request → Finset Client → Finset Client
  | [], m => m
  | .register c :: rest, m => replaySet rest (insert c m)
  | .unregister c :: rest, m => replaySet rest (m.erase c)

/-- The last request of the sequence that is about client `c`, if there is one. -/
def lastRequest (c : Client) : List Request → Option Request
  | [] => none
  | q :: rest =>
    match lastRequest c rest with
    | some q1 => some q1
    | none => if q.client = c then some q else none

/-- No client is registered again after a request to unregister it. -/
def noRegisterAfterUnregister : List Request → Bool
  | [] => true
  | .register _ :: rest => noRegisterAfterUnregister rest
  | .unregister c :: rest =>
    decide (Request.register c ∉ rest) && noRegisterAfterUnregister rest

/-! ## Sample data for the concrete runs -/

/-- A stand-in for `json.Marshal` in concrete runs: the bytes of the envelope type,
then the content of the carried message. -/
def sampleMarshal (m : WebSocketMessage) : Except String Bytes :=
  .ok (m.Typ.toList.map Char.toNat ++
    match m.Message with
    | some msg => 58 :: msg.Content.toList.map Char.toNat
    | none => [])

/-- User 7, "alice", connected to room 3. -/
def alice : Client :=
  { RoomID := 3, UserID := 7, Username := "alice", addr := 1 }

/-- User 8, "bob", connected to room 3. -/
def bob : Client :=
  { RoomID := 3, UserID := 8, Username := "bob", addr := 2 }

/-- A payload. -/
def hello : Bytes := [104, 105]

/-- A store that gives every message the id 101. -/
def store101 : Int → Int → String → Time → Option Int :=
  fun _ _ _ _ => some 101

/-- A store whose insert fails. -/
def storeDown : Int → Int → String → Time → Option Int :=
  fun _ _ _ _ => none

/-- The inbound event with type "message" and content "hi". -/
def hiEvent : WebSocketMessage :=
  { WebSocketMessage.zero with Typ := "message", Content := "hi" }

/-- The map holding alice and bob. -/
def aliceAndBob : ClientSet :=
  (ClientSet.empty.insert alice).insert bob

/-- The channel capacity used in `handlers/websocket.go`. -/
def sendCap : Client → Nat :=
  fun _ => 256

/-- A new hub with channels of capacity 256, after alice and bob registered. -/
def twoInRoom : HubState :=
  registerStep (registerStep (NewHub sendCap) alice) bob

/-- A run in which alice registers, 256 broadcasts fill her queue, and `SendMessage`
finds it full and closes it: alice stays in room 3 with a full, closed queue. -/
def fillAndCloseRun : List Action :=
  [.register alice] ++
  List.replicate 256 (.broadcast { RoomID := 3, Message := hello, Sender := none }) ++
  [.sendMessage alice errorMsg]

/-- The run `fillAndCloseRun`, after which alice's write pump drains her queue: alice
stays in room 3 with an empty, closed queue. -/
def closedMemberRun : List Action :=
  fillAndCloseRun ++ [.writePump alice]

/-- The run `fillAndCloseRun`, after which the hub loop takes the unregister request that
alice's read pump submits on exit. -/
def doubleCloseRun : List Action :=
  fillAndCloseRun ++ [.unregister alice]

/-- A run after which alice and bob are in room 3 and bob's queue is full: 256 broadcasts
with alice as the excluded sender. -/
def bobFullRun : List Action :=
  [.register alice, .register bob] ++
  List.replicate 256 (.broadcast { RoomID := 3, Message := hello, Sender := some alice })

/-- The state after `bobFullRun`. -/
def bobFullState : HubState :=
  afterRun sampleMarshal bobFullRun (NewHub sendCap)

/-- A run after which alice is in room 3 and her queue is full and open. -/
def aliceFullRun : List Action :=
  [.register alice] ++
  List.replicate 256 (.broadcast { RoomID := 3, Message := hello, Sender := none })

/-- The state after `aliceFullRun`. -/
def aliceFullState : HubState :=
  afterRun sampleMarshal aliceFullRun (NewHub sendCap)

/-- The state after `fillAndCloseRun`. -/
def closedFullState : HubState :=
  afterRun sampleMarshal fillAndCloseRun (NewHub sendCap)

/-- The message alice's event "hi" becomes once the store gave it id 101 at time 1000. -/
def hiMessage : Message :=
  { ID := 101, RoomID := 3, UserID := 7, Username := "alice", Content := "hi",
    CreatedAt := 1000 }

/-- The envelope that carries `hiMessage` to room 3. -/
def hiEnvelope : WebSocketMessage :=
  { WebSocketMessage.zero with Typ := "message", RoomID := 3, Message := some hiMessage }

/-- The bytes `sampleMarshal` gives for `hiEnvelope`. -/
def hiBytes : Bytes :=
  [109, 101, 115, 115, 97, 103, 101, 58, 104, 105]

/-- The requests a read-pump iteration put on `h.broadcast`; none when it panicked. -/
def submittedOf (r : Except Panic PumpResult) : List BroadcastMessage :=
  match r with
  | .ok res => res.submitted
  | .error _ => []

/-- The queue of client `c` after a read-pump iteration: `none` when it panicked. -/
def pumpQueue (r : Except Panic PumpResult) (c : Client) : Option Chan :=
  match r with
  | .ok res => some (res.state.Send c)
  | .error _ => none

/-! ## connection.go: constants, the read loop, the transport -/

/-- The constant `time.Second`, in nanoseconds. -/
def Second : Int := 1000000000

/-- The constant `writeWait`. -/
def writeWait : Int := 10 * Second

/-- The constant `pongWait`. -/
def pongWait : Int := 60 * Second

/-- The constant `pingPeriod`; the division of Go truncates. -/
def pingPeriod : Int := Int.tdiv (pongWait * 9) 10

/-- The constant `maxMessageSize`. -/
def maxMessageSize : Int := 512

/-- What a whole run of `Client.ReadPump` did: the state of the channels at the end, the
messages handed to `saveMessage`, the requests put on `h.broadcast`, and the clients put
on `h.unregister` by the deferred cleanup. -/
structure PumpRun where
  state : HubState
  stored : List Message
  submitted : List BroadcastMessage
  unregistered : List Client

/-- The method `Client.ReadPump` on the events that `ReadJSON` returns, each with the
time at which it is handled; after the last of them `ReadJSON` fails, the loop breaks
and the deferred function calls `c.Hub.Unregister(c)`. -/
def ReadPump (saveMessage : Message → Except String Message)
    (marshal : WebSocketMessage → Except String Bytes) (c : Client) :
    List (Time × WebSocketMessage) → HubState → Except Panic PumpRun
  | [], s => .ok { state := s, stored := [], submitted := [], unregistered := [c] }
  | ev :: rest, s =>
    match readPumpEvent saveMessage marshal ev.1 s c ev.2 with
    | .error e => .error e
    | .ok res =>
      match ReadPump saveMessage marshal c rest res.state with
      | .error e => .error e
      | .ok run =>
        .ok { state := run.state, stored := res.stored ++ run.stored,
              submitted := res.submitted ++ run.submitted, unregistered := run.unregistered }

/-- The requests a whole run of the read pump put on `h.broadcast`; none when it
panicked. -/
def runSubmitted (r : Except Panic PumpRun) : List BroadcastMessage :=
  match r with
  | .ok run => run.submitted
  | .error _ => []

/-- The messages a whole run of the read pump handed to the store; none when it
panicked. -/
def runStored (r : Except Panic PumpRun) : List Message :=
  match r with
  | .ok run => run.stored
  | .error _ => []

/-- What the hub loop does to `h.mu` and to the membership map, in program order:
`Lock`, `Unlock`, `RLock`, `RUnlock`, and `mutate` for an assignment to or a `delete`
from `h.rooms` or the client map of a room. -/
inductive LockEvent where
  | lock
  | unlock
  | rLock
  | rUnlock
  | mutate
deriving DecidableEq, Repr

/-- The lock and map events of the register case. -/
def registerEvents (s : HubState) (client : Client) : List LockEvent :=
  [.lock] ++
  (match s.rooms client.RoomID with
   | none => [.mutate]
   | some _ => []) ++
  [.mutate, .unlock]

/-- The lock and map events of the unregister case; a panic in `close` ends them. -/
def unregisterEvents (s : HubState) (client : Client) : List LockEvent :=
  [.lock] ++
  (match s.rooms client.RoomID with
   | some clients =>
     if client ∈ clients.elems then
       [.mutate] ++
       (match (s.Send client).close with
        | .error _ => []
        | .ok _ => (if (clients.erase client).len = 0 then [.mutate] else []) ++ [.unlock])
     else [.unlock]
   | none => [.unlock])

/-- The map events of one round of the broadcast loop: the default branch deletes the
client from the room's map. -/
def broadcastClientEvents (msg : BroadcastMessage) (st : ClientSet × (Client → Chan))
    (client : Client) : List LockEvent :=
  if msg.Sender = some client then []
  else
    match (st.2 client).trySend msg.Message with
    | .ok none => [.mutate]
    | _ => []

/-- The map events of the broadcast loop; a panic ends them. -/
def broadcastLoopEvents (msg : BroadcastMessage) :
    List Client → ClientSet × (Client → Chan) → List LockEvent × Bool
  | [], _ => ([], true)
  | client :: rest, st =>
    match broadcastClient msg st client with
    | .error _ => (broadcastClientEvents msg st client, false)
    | .ok st1 =>
      ((broadcastClientEvents msg st client) ++ (broadcastLoopEvents msg rest st1).1,
       (broadcastLoopEvents msg rest st1).2)

/-- The lock and map events of the broadcast case: the loop runs between `RLock` and
`RUnlock`. -/
def broadcastEvents (s : HubState) (msg : BroadcastMessage) : List LockEvent :=
  [.rLock] ++
  (match s.rooms msg.RoomID with
   | some clients =>
     (broadcastLoopEvents msg clients.elems (clients, s.Send)).1 ++
     (if (broadcastLoopEvents msg clients.elems (clients, s.Send)).2 then [.rUnlock] else [])
   | none => [.rUnlock])

/-- How the hub loop holds `h.mu`. -/
inductive Held where
  | free
  | exclusive
  | shared
deriving DecidableEq, Repr

/-- Whether every `mutate` of a sequence of events happens while the hub loop holds the
lock exclusively, starting from `held`. -/
def mutatesUnderLock : Held → List LockEvent → Bool
  | _, [] => true
  | _, .lock :: rest => mutatesUnderLock .exclusive rest
  | _, .unlock :: rest => mutatesUnderLock .free rest
  | _, .rLock :: rest => mutatesUnderLock .shared rest
  | _, .rUnlock :: rest => mutatesUnderLock .free rest
  | held, .mutate :: rest => decide (held = .exclusive) && mutatesUnderLock held rest

/-- Whether `RLock` of a reader (`GetRoomClients`, `GetRoomClientCount`) is granted while
the hub loop holds the lock as `held`: a `sync.RWMutex` admits readers unless it is held
exclusively. -/
def readerAdmitted : Held → Bool
  | .exclusive => false
  | _ => true

/-- Whether some `mutate` of a sequence of events happens while a reader is admitted. -/
def mutatesBesideReader : Held → List LockEvent → Bool
  | _, [] => false
  | _, .lock :: rest => mutatesBesideReader .exclusive rest
  | _, .unlock :: rest => mutatesBesideReader .free rest
  | _, .rLock :: rest => mutatesBesideReader .shared rest
  | _, .rUnlock :: rest => mutatesBesideReader .free rest
  | held, .mutate :: rest => readerAdmitted held || mutatesBesideReader held rest

/-! ## Hub-only runs and the broadcast step up to a panic -/

/-- Whether an action is a request taken by the hub loop. -/
def Action.isHubStep : Action → Bool
  | .register _ => true
  | .unregister _ => true
  | .broadcast _ => true
  | .sendMessage _ _ => false
  | .writePump _ => false

/-- The clients registered by a list of actions, in order. -/
def registrations : List Action → List Client
  | [] => []
  | .register c :: rest => c :: registrations rest
  | _ :: rest => registrations rest

/-- The broadcast loop with the state it had reached when it stopped and the panic that
stopped it, if any. -/
def broadcastLoopUpTo (msg : BroadcastMessage) :
    List Client → ClientSet × (Client → Chan) → (ClientSet × (Client → Chan)) × Option Panic
  | [], st => (st, none)
  | client :: rest, st =>
    match broadcastClient msg st client with
    | .error e => (st, some e)
    | .ok st1 => broadcastLoopUpTo msg rest st1

/-- The broadcast case of `Hub.Run` with the state it had reached when it stopped and
the panic that stopped it, if any. -/
def broadcastStepUpTo (s : HubState) (msg : BroadcastMessage) : HubState × Option Panic :=
  match s.rooms msg.RoomID with
  | some clients =>
    let r := broadcastLoopUpTo msg clients.elems (clients, s.Send)
    ({ rooms := setRoom s.rooms msg.RoomID (some r.1.1), Send := r.1.2 }, r.2)
  | none => (s, none)

/-- The entry of room `roomID` in the membership map after a run: `none` when the run
panicked, `some none` when the map has no such key, `some (some l)` when the key is
present with the clients `l`. -/
def roomEntryAfter (r : Except Panic HubState) (roomID : Int) : Option (Option (List Client)) :=
  match r with
  | .error _ => none
  | .ok s => some ((s.rooms roomID).map ClientSet.elems)

/-- The count `GetRoomClientCount` reports after a run: `none` when the run panicked. -/
def countAfter (r : Except Panic HubState) (roomID : Int) : Option Nat :=
  match r with
  | .error _ => none
  | .ok s => some (GetRoomClientCount s roomID)

/-- A run with hub steps only: alice registers, 256 broadcasts fill her queue, and one
more broadcast finds it full and evicts her, the last member of room 3. -/
def evictLastRun : List Action :=
  [.register alice] ++
  List.replicate 257 (.broadcast { RoomID := 3, Message := hello, Sender := none })

/-- An inbound event of type "join" that carries identity fields of its own. -/
def joinEvent : WebSocketMessage :=
  { Typ := "join", RoomID := 9, Message := none, Content := "hi", Error := "",
    UserID := 99, Username := "mallory" }

/-- An inbound "message" event with content "hi" that claims to come from user 99 in
room 9. -/
def forgedEvent : WebSocketMessage :=
  { Typ := "message", RoomID := 9, Message := none, Content := "hi", Error := "x",
    UserID := 99, Username := "mallory" }

/-- A run of hub steps in which alice and bob register once each. -/
def hubOnlyRun : List Action :=
  [.register alice, .register bob,
   .broadcast { RoomID := 3, Message := hello, Sender := none }, .unregister alice]

/-! ## Channel lemmas -/

theorem Chan.trySend_room (ch : Chan) (v : Bytes) (h : ch.closed = false)
    (hlen : ch.buf.length < ch.cap) :
    ch.trySend v = .ok (some { ch with buf := ch.buf ++ [v] }) := by
  simp [Chan.trySend, h, hlen]

theorem Chan.trySend_full (ch : Chan) (v : Bytes) (h : ch.closed = false)
    (hlen : ¬ ch.buf.length < ch.cap) :
    ch.trySend v = .ok none := by
  simp [Chan.trySend, h, hlen]

theorem Chan.close_open (ch : Chan) (h : ch.closed = false) :
    ch.close = .ok { ch with closed := true } := by
  simp [Chan.close, h]

theorem Chan.close_closed (ch : Chan) (h : ch.closed = true) :
    ch.close = .error .closeOfClosedChannel := by
  simp [Chan.close, h]

theorem setSend_same (send : Client → Chan) (c : Client) (ch : Chan) :
    setSend send c ch c = ch := by
  simp [setSend]

theorem setSend_other (send : Client → Chan) (c d : Client) (ch : Chan) (h : d ≠ c) :
    setSend send c ch d = send d := by
  simp [setSend, h]

theorem setRoom_same (rooms : Int → Option ClientSet) (r : Int) (v : Option ClientSet) :
    setRoom rooms r v r = v := by
  simp [setRoom]

theorem setRoom_other (rooms : Int → Option ClientSet) (r r1 : Int) (v : Option ClientSet)
    (h : r1 ≠ r) : setRoom rooms r v r1 = rooms r1 := by
  simp [setRoom, h]

theorem ClientSet.mem_erase (cs : ClientSet) (c d : Client) :
    d ∈ (cs.erase c).elems ↔ d ≠ c ∧ d ∈ cs.elems := by
  simp [ClientSet.erase, cs.nodup.mem_erase_iff]

theorem ClientSet.mem_insert (cs : ClientSet) (c d : Client) :
    d ∈ (cs.insert c).elems ↔ d = c ∨ d ∈ cs.elems := by
  unfold ClientSet.insert
  split
  · constructor
    · intro h
      exact Or.inr h
    · rintro (h | h)
      · subst h
        assumption
      · exact h
  · simp [or_comm]

/-! ## The broadcast loop -/

/-- The loop body on a client that is not the excluded sender and whose channel is open. -/
theorem broadcastClient_open (msg : BroadcastMessage) (cs : ClientSet) (send : Client → Chan)
    (c : Client) (hs : msg.Sender ≠ some c) (ho : (send c).closed = false) :
    broadcastClient msg (cs, send) c =
      .ok (if (send c).buf.length < (send c).cap then cs else cs.erase c,
           setSend send c (deliver msg.Message (send c))) := by
  unfold broadcastClient
  rw [if_neg hs]
  by_cases hlen : (send c).buf.length < (send c).cap
  · simp [Chan.trySend_room _ _ ho hlen, deliver, hlen]
  · simp [Chan.trySend_full _ _ ho hlen, Chan.close_open _ ho, deliver, hlen]

/-- The broadcast loop over duplicate-free keys whose channels are open (the excluded
sender apart) ends without panic: every visited client other than the sender gets the
payload or is closed and deleted, and nothing else changes. -/
theorem broadcastLoop_open (msg : BroadcastMessage) :
    ∀ (l : List Client), l.Nodup → ∀ (cs : ClientSet) (send : Client → Chan),
      (∀ c ∈ l, msg.Sender ≠ some c → (send c).closed = false) →
      ∃ cs1 send1, broadcastLoop msg l (cs, send) = .ok (cs1, send1) ∧
        (∀ c, send1 c =
          if c ∈ l ∧ msg.Sender ≠ some c then deliver msg.Message (send c) else send c) ∧
        cs1.elems = cs.elems.filter (fun c =>
          decide (¬ (c ∈ l ∧ msg.Sender ≠ some c ∧ ¬ (send c).buf.length < (send c).cap))) := by
  intro l
  induction l with
  | nil =>
    intro _ cs send _
    exact ⟨cs, send, rfl, by simp, by simp⟩
  | cons a rest ih =>
    intro hnd cs send hopen
    have hna : a ∉ rest := (List.nodup_cons.mp hnd).1
    have hrest : rest.Nodup := (List.nodup_cons.mp hnd).2
    by_cases hs : msg.Sender = some a
    · have hstep : broadcastClient msg (cs, send) a = .ok (cs, send) := by
        simp [broadcastClient, hs]
      obtain ⟨cs1, send1, hrun, hsend, hmem⟩ := ih hrest cs send
        (fun c hc hcs => hopen c (List.mem_cons_of_mem a hc) hcs)
      refine ⟨cs1, send1, ?_, ?_, ?_⟩
      · simp [broadcastLoop, hstep, hrun]
      · intro c
        rw [hsend c]
        by_cases hca : c = a
        · subst hca
          simp [hna, hs]
        · simp [hca]
      · rw [hmem]
        apply List.filter_congr
        intro c _
        by_cases hca : c = a
        · subst hca
          simp [hna, hs]
        · simp [hca]
    · have ho : (send a).closed = false := hopen a (List.mem_cons_self a rest) hs
      have hstep := broadcastClient_open msg cs send a hs ho
      obtain ⟨cs1, send1, hrun, hsend, hmem⟩ := ih hrest
        (if (send a).buf.length < (send a).cap then cs else cs.erase a)
        (setSend send a (deliver msg.Message (send a)))
        (by
          intro c hc hcs
          have hca : c ≠ a := fun h => hna (h ▸ hc)
          rw [setSend_other _ _ _ _ hca]
          exact hopen c (List.mem_cons_of_mem a hc) hcs)
      refine ⟨cs1, send1, ?_, ?_, ?_⟩
      · simp [broadcastLoop, hstep, hrun]
      · intro c
        rw [hsend c]
        by_cases hca : c = a
        · subst hca
          simp [hna, hs, setSend_same]
        · simp [hca, setSend_other _ _ _ _ hca]
      · rw [hmem]
        by_cases hlen : (send a).buf.length < (send a).cap
        · rw [if_pos hlen]
          apply List.filter_congr
          intro c _
          by_cases hca : c = a
          · subst hca
            simp [hna, hs, hlen]
          · simp [hca, setSend_other _ _ _ _ hca]
        · rw [if_neg hlen]
          have herase : (cs.erase a).elems = cs.elems.filter (fun c => decide (c ≠ a)) := by
            show cs.elems.erase a = _
            rw [cs.nodup.erase_eq_filter]
            apply List.filter_congr
            intro c _
            by_cases hca : c = a <;> simp [hca]
          rw [herase, List.filter_filter]
          apply List.filter_congr
          intro c _
          by_cases hca : c = a
          · subst hca
            simp [hna, hs, hlen]
          · simp [hca, setSend_other _ _ _ _ hca]

theorem ClientSet.ext_elems (a b : ClientSet) (h : a.elems = b.elems) : a = b := by
  cases a
  cases b
  cases h
  rfl

theorem setRoom_self (rooms : Int → Option ClientSet) (r : Int) (v : Option ClientSet)
    (h : rooms r = v) : setRoom rooms r v = rooms := by
  funext x
  by_cases hx : x = r
  · subst hx
    simp [setRoom, h]
  · simp [setRoom, hx]

/-- The broadcast step on a room whose members have open channels ends without panic:
members other than the sender get `deliver`, nobody else is touched, and the room keeps
the members that were not full. -/
theorem broadcastStep_open (s : HubState) (msg : BroadcastMessage) (cs : ClientSet)
    (hroom : s.rooms msg.RoomID = some cs)
    (hopen : ∀ c ∈ cs.elems, msg.Sender ≠ some c → (s.Send c).closed = false) :
    ∃ s1 cs1, broadcastStep s msg = .ok s1 ∧
      s1.rooms = setRoom s.rooms msg.RoomID (some cs1) ∧
      (∀ c, s1.Send c =
        if c ∈ cs.elems ∧ msg.Sender ≠ some c then deliver msg.Message (s.Send c)
        else s.Send c) ∧
      cs1.elems = cs.elems.filter (fun c => decide
        (¬ (c ∈ cs.elems ∧ msg.Sender ≠ some c ∧
            ¬ (s.Send c).buf.length < (s.Send c).cap))) := by
  obtain ⟨cs1, send1, hrun, hsend, hmem⟩ :=
    broadcastLoop_open msg cs.elems cs.nodup cs s.Send hopen
  refine ⟨{ rooms := setRoom s.rooms msg.RoomID (some cs1), Send := send1 }, cs1, ?_, rfl,
    hsend, hmem⟩
  simp [broadcastStep, hroom, hrun]

/-- The broadcast step on a room whose visited members are open and have room: no panic,
the membership map is unchanged, and exactly the members other than the sender get the
payload at the tail of their queue. -/
theorem broadcastStep_free (s : HubState) (msg : BroadcastMessage) (cs : ClientSet)
    (hroom : s.rooms msg.RoomID = some cs)
    (hopen : ∀ c ∈ cs.elems, msg.Sender ≠ some c → (s.Send c).closed = false)
    (hfree : ∀ c ∈ cs.elems, msg.Sender ≠ some c → (s.Send c).buf.length < (s.Send c).cap) :
    ∃ s1, broadcastStep s msg = .ok s1 ∧ s1.rooms = s.rooms ∧
      ∀ c, s1.Send c =
        if c ∈ cs.elems ∧ msg.Sender ≠ some c then
          { s.Send c with buf := (s.Send c).buf ++ [msg.Message] }
        else s.Send c := by
  obtain ⟨s1, cs1, hrun, hrooms, hsend, hmem⟩ := broadcastStep_open s msg cs hroom hopen
  refine ⟨s1, hrun, ?_, ?_⟩
  · have hcs : cs1 = cs := by
      apply ClientSet.ext_elems
      rw [hmem, List.filter_eq_self]
      intro c hc
      by_cases hsc : msg.Sender = some c
      · simp [hsc]
      · simp [hfree c hc hsc]
    rw [hrooms, hcs]
    exact setRoom_self _ _ _ hroom
  · intro c
    rw [hsend c]
    by_cases hc : c ∈ cs.elems ∧ msg.Sender ≠ some c
    · rw [if_pos hc, if_pos hc]
      simp [deliver, hfree c hc.1 hc.2]
    · rw [if_neg hc, if_neg hc]

/-- Delivery on open queues: for every room with k members whose outbound queues are all
open and not full, and every payload p, the broadcast step for (room, p, no sender) does
not panic,
leaves the membership map as it is and appends p to the tail of the queue of each of the
k members and of nobody else; with a member x as excluded sender, p is appended to the
queues of exactly the other k-1 members and the queue of x is unchanged. -/
theorem broadcast_delivers_to_open_room (s : HubState) (r : Int) (cs : ClientSet) (p : Bytes)
    (hroom : s.rooms r = some cs)
    (hopen : ∀ c ∈ cs.elems, (s.Send c).closed = false)
    (hfree : ∀ c ∈ cs.elems, (s.Send c).buf.length < (s.Send c).cap) :
    (∃ s1, broadcastStep s { RoomID := r, Message := p, Sender := none } = .ok s1 ∧
      s1.rooms = s.rooms ∧
      (∀ c ∈ cs.elems, s1.Send c = { s.Send c with buf := (s.Send c).buf ++ [p] }) ∧
      (∀ c, c ∉ cs.elems → s1.Send c = s.Send c) ∧
      (cs.elems.filter
        (fun c => decide ((s1.Send c).buf = (s.Send c).buf ++ [p]))).length = cs.len) ∧
    (∀ x ∈ cs.elems,
      ∃ s1, broadcastStep s { RoomID := r, Message := p, Sender := some x } = .ok s1 ∧
        s1.rooms = s.rooms ∧
        (∀ c ∈ cs.elems, c ≠ x → s1.Send c = { s.Send c with buf := (s.Send c).buf ++ [p] }) ∧
        s1.Send x = s.Send x ∧
        (∀ c, c ∉ cs.elems → s1.Send c = s.Send c) ∧
        (cs.elems.filter
          (fun c => decide ((s1.Send c).buf = (s.Send c).buf ++ [p]))).length = cs.len - 1) := by
  constructor
  · obtain ⟨s1, hrun, hrooms, hsend⟩ :=
      broadcastStep_free s { RoomID := r, Message := p, Sender := none } cs hroom
        (fun c hc _ => hopen c hc) (fun c hc _ => hfree c hc)
    refine ⟨s1, hrun, hrooms, ?_, ?_, ?_⟩
    · intro c hc
      rw [hsend c]
      simp [hc]
    · intro c hc
      rw [hsend c]
      simp [hc]
    · rw [List.filter_eq_self.mpr]
      · rfl
      · intro c hc
        rw [hsend c]
        simp [hc]
  · intro x hx
    obtain ⟨s1, hrun, hrooms, hsend⟩ :=
      broadcastStep_free s { RoomID := r, Message := p, Sender := some x } cs hroom
        (fun c hc _ => hopen c hc) (fun c hc _ => hfree c hc)
    have hxs : s1.Send x = s.Send x := by
      rw [hsend x]
      simp
    have hothers : ∀ c ∈ cs.elems, c ≠ x →
        s1.Send c = { s.Send c with buf := (s.Send c).buf ++ [p] } := by
      intro c hc hcx
      rw [hsend c]
      have hxc : ¬ x = c := fun h => hcx h.symm
      simp [hc, hxc]
    refine ⟨s1, hrun, hrooms, hothers, hxs, ?_, ?_⟩
    · intro c hc
      rw [hsend c]
      simp [hc]
    · have hfilter : cs.elems.filter
          (fun c => decide ((s1.Send c).buf = (s.Send c).buf ++ [p])) = cs.elems.erase x := by
        rw [cs.nodup.erase_eq_filter]
        apply List.filter_congr
        intro c hc
        by_cases hcx : c = x
        · subst hcx
          simp [hxs]
        · simp [hothers c hc hcx, hcx]
      rw [hfilter, List.length_erase_of_mem hx]
      rfl

set_option maxRecDepth 100000 in
/-- C1 is broken by the code: alice registers with the channel capacity 256 of
`handlers/websocket.go`, 256 broadcasts fill her queue, `SendMessage` finds it full and
closes it without unregistering her (the defect of C3), and her write pump drains it.
Room 3 then has the single member alice, whose queue is empty (not full) but closed, and
a broadcast to room 3 panics with "send on closed channel" instead of appending the
payload to her queue. -/
theorem broadcast_panics_on_closed_member :
    membersAfter (runActions sampleMarshal closedMemberRun (NewHub sendCap)) 3
      = some [alice] ∧
    queueAfter (runActions sampleMarshal closedMemberRun (NewHub sendCap)) alice
      = some { buf := [], cap := 256, closed := true } ∧
    panicOf (runActions sampleMarshal
        (closedMemberRun ++ [.broadcast { RoomID := 3, Message := hello, Sender := none }])
        (NewHub sendCap))
      = some Panic.sendOnClosedChannel := by
  decide!

/-- Example of delivery on open queues: alice and bob in room 3, both queues open and empty with
capacity 256; the payload reaches both without exclusion, and only bob when alice is the
excluded sender. -/
theorem broadcast_delivers_to_open_room_witness :
    twoInRoom.rooms 3 = some aliceAndBob ∧
    (∃ s1, broadcastStep twoInRoom { RoomID := 3, Message := hello, Sender := none } = .ok s1 ∧
      s1.Send alice = { buf := [hello], cap := 256, closed := false } ∧
      s1.Send bob = { buf := [hello], cap := 256, closed := false }) ∧
    (∃ s1, broadcastStep twoInRoom { RoomID := 3, Message := hello, Sender := some alice }
        = .ok s1 ∧
      s1.Send alice = { buf := [], cap := 256, closed := false } ∧
      s1.Send bob = { buf := [hello], cap := 256, closed := false }) := by
  have h := broadcast_delivers_to_open_room twoInRoom 3 aliceAndBob hello rfl
    (fun _ _ => rfl) (fun _ _ => (by decide : 0 < 256))
  refine ⟨rfl, ?_, ?_⟩
  · obtain ⟨s1, hrun, _, hsend, _, _⟩ := h.1
    exact ⟨s1, hrun, hsend alice (by decide), hsend bob (by decide)⟩
  · obtain ⟨s1, hrun, _, hsend, hx, _, _⟩ := h.2 alice (by decide)
    exact ⟨s1, hrun, hx, hsend bob (by decide) (by decide)⟩

/-- Eviction on open queues: in a room whose visited members all have open queues, if a non-excluded
member m has a full queue (length equal to capacity) when the broadcast step runs, then
the step does not panic, afterwards the queue of m is closed (its contents untouched) and
m is no longer in the room's client set, and every other non-excluded member whose queue
is not full has p appended to its queue and stays in the room. -/
theorem broadcast_evicts_full_member (s : HubState) (r : Int) (cs : ClientSet) (p : Bytes)
    (sender : Option Client) (m : Client)
    (hroom : s.rooms r = some cs)
    (hopen : ∀ c ∈ cs.elems, sender ≠ some c → (s.Send c).closed = false)
    (hm : m ∈ cs.elems) (hms : sender ≠ some m)
    (hfull : (s.Send m).buf.length = (s.Send m).cap) :
    ∃ s1, broadcastStep s { RoomID := r, Message := p, Sender := sender } = .ok s1 ∧
      s1.Send m = { s.Send m with closed := true } ∧
      m ∉ GetRoomClients s1 r ∧
      ∀ c ∈ cs.elems, sender ≠ some c → (s.Send c).buf.length < (s.Send c).cap →
        s1.Send c = { s.Send c with buf := (s.Send c).buf ++ [p] } ∧
        c ∈ GetRoomClients s1 r := by
  obtain ⟨s1, cs1, hrun, hrooms, hsend, hmem⟩ :=
    broadcastStep_open s { RoomID := r, Message := p, Sender := sender } cs hroom hopen
  have hget : GetRoomClients s1 r = cs1.elems := by
    simp [GetRoomClients, hrooms, setRoom]
  refine ⟨s1, hrun, ?_, ?_, ?_⟩
  · rw [hsend m]
    simp [hm, hms, deliver, hfull]
  · rw [hget, hmem]
    simp [hm, hms, hfull]
  · intro c hc hcs hlen
    constructor
    · rw [hsend c]
      simp [hc, hcs, deliver, hlen]
    · rw [hget, hmem]
      simp [hc, hlen]

set_option maxRecDepth 100000 in
/-- C2 is broken by the code: after `fillAndCloseRun` alice is a member of room 3 whose
queue is full (256 payloads, capacity 256) and already closed, because `SendMessage`
closed it without unregistering her (the defect of C3).  The broadcast step then panics
with "send on closed channel" instead of evicting her: alice is never taken out of the
room. -/
theorem broadcast_panics_on_closed_full_member :
    membersAfter (runActions sampleMarshal fillAndCloseRun (NewHub sendCap)) 3
      = some [alice] ∧
    queueAfter (runActions sampleMarshal fillAndCloseRun (NewHub sendCap)) alice
      = some { buf := List.replicate 256 hello, cap := 256, closed := true } ∧
    panicOf (runActions sampleMarshal
        (fillAndCloseRun ++ [.broadcast { RoomID := 3, Message := [33], Sender := none }])
        (NewHub sendCap))
      = some Panic.sendOnClosedChannel := by
  decide!

set_option maxRecDepth 100000 in
/-- Example of eviction on open queues: alice (open, empty) and bob (open, full) in room 3; a
broadcast without exclusion closes bob's queue, removes bob, and reaches alice. -/
theorem broadcast_evicts_full_member_witness :
    bobFullState.Send bob = { buf := List.replicate 256 hello, cap := 256, closed := false } ∧
    ∃ s1, broadcastStep bobFullState { RoomID := 3, Message := [33], Sender := none }
        = .ok s1 ∧
      s1.Send bob = { buf := List.replicate 256 hello, cap := 256, closed := true } ∧
      bob ∉ GetRoomClients s1 3 ∧
      s1.Send alice = { buf := [[33]], cap := 256, closed := false } ∧
      alice ∈ GetRoomClients s1 3 := by
  have hroom : bobFullState.rooms 3 = some aliceAndBob := by
    apply congrArg some
    apply ClientSet.ext_elems
    decide!
  refine ⟨by decide!, ?_⟩
  obtain ⟨s1, hrun, hbob, hout, hrest⟩ :=
    broadcast_evicts_full_member bobFullState 3 aliceAndBob [33] none bob hroom
      (by decide!) (by decide) (by decide) (by decide!)
  obtain ⟨halice, hin⟩ := hrest alice (by decide) (by decide) (by decide!)
  refine ⟨s1, hrun, ?_, hout, ?_, hin⟩
  · rw [hbob]
    decide!
  · rw [halice]
    decide!

set_option maxRecDepth 100000 in
/-- C3 is broken by the code: with the channel capacity 256 of `handlers/websocket.go`,
alice registers once with an open queue, 256 broadcasts fill it, `SendMessage` finds it
full and closes it while alice stays in the room, and the unregister step of the hub loop
then closes the closed channel: the run panics with "close of closed channel".  Without
the last step the run does not panic and alice is a member whose queue is closed. -/
theorem sendMessage_then_unregister_closes_twice :
    panicOf (runActions sampleMarshal fillAndCloseRun (NewHub sendCap)) = none ∧
    membersAfter (runActions sampleMarshal fillAndCloseRun (NewHub sendCap)) 3
      = some [alice] ∧
    (queueAfter (runActions sampleMarshal fillAndCloseRun (NewHub sendCap))
      alice).map Chan.closed = some true ∧
    panicOf (runActions sampleMarshal doubleCloseRun (NewHub sendCap))
      = some Panic.closeOfClosedChannel := by
  refine ⟨?_, ?_, ?_, ?_⟩
  · rfl
  · decide!
  · decide!
  · rfl

/-! ## The unregister step -/

/-- Unregistering a client that is not in its room's client set changes nothing. -/
theorem unregisterStep_absent (s : HubState) (c : Client)
    (h : c ∉ GetRoomClients s c.RoomID) : unregisterStep s c = .ok s := by
  unfold unregisterStep unregisterLocked BroadcastToRoom
  cases hr : s.rooms c.RoomID with
  | none => rfl
  | some cs =>
    have hc : c ∉ cs.elems := by
      simpa [GetRoomClients, hr] using h
    simp [hc]

/-- Unregistering a member whose channel is closed panics. -/
theorem unregisterStep_closed (s : HubState) (c : Client) (cs : ClientSet)
    (hr : s.rooms c.RoomID = some cs) (hc : c ∈ cs.elems) (hcl : (s.Send c).closed = true) :
    unregisterStep s c = .error .closeOfClosedChannel := by
  unfold unregisterStep unregisterLocked
  simp [hr, hc, Chan.close_closed _ hcl]

/-- Unregistering a member whose channel is open: the channel is closed, the client leaves
the map of its room, the room is deleted when it becomes empty, and nothing else changes. -/
theorem unregisterStep_member (s : HubState) (c : Client) (cs : ClientSet)
    (hr : s.rooms c.RoomID = some cs) (hc : c ∈ cs.elems) (ho : (s.Send c).closed = false) :
    ∃ s1, unregisterStep s c = .ok s1 ∧
      s1.Send = setSend s.Send c { s.Send c with closed := true } ∧
      s1.rooms = setRoom s.rooms c.RoomID
        (if (cs.erase c).len = 0 then none else some (cs.erase c)) ∧
      GetRoomClients s1 c.RoomID = cs.elems.erase c := by
  unfold unregisterStep unregisterLocked BroadcastToRoom
  by_cases hlen : (cs.erase c).len = 0
  · refine ⟨_, by simp only [hr, hc, Chan.close_open _ ho, hlen, if_true]; rfl, rfl, ?_, ?_⟩
    · simp [hlen]
    · have h0 : cs.elems.erase c = [] := by
        simpa [ClientSet.len, ClientSet.erase] using hlen
      simp [GetRoomClients, setRoom, h0]
  · refine ⟨_, by simp only [hr, hc, Chan.close_open _ ho, hlen, if_true, if_false]; rfl,
      rfl, ?_, ?_⟩
    · simp [hlen]
    · simp [GetRoomClients, setRoom, ClientSet.erase]

/-- C4: for every hub state and client c, the unregister step applied to c twice has the
same outcome as applied once; applied to a client that is not in its room's client set it
returns the state unchanged (same membership map, same queues, so no panic and no "leave"
payload enqueued); and when the queue of c is open the step does not panic and a second
unregister step returns the state of the first. -/
theorem unregister_idempotent (s : HubState) (c : Client) :
    (unregisterStep s c).bind (fun s1 => unregisterStep s1 c) = unregisterStep s c ∧
    (c ∉ GetRoomClients s c.RoomID → unregisterStep s c = .ok s) ∧
    ((s.Send c).closed = false →
      ∃ s1, unregisterStep s c = .ok s1 ∧ unregisterStep s1 c = .ok s1) := by
  have hmem : ∀ cs, s.rooms c.RoomID = some cs → c ∈ cs.elems → (s.Send c).closed = false →
      ∃ s1, unregisterStep s c = .ok s1 ∧ unregisterStep s1 c = .ok s1 := by
    intro cs hr hc ho
    obtain ⟨s1, hrun, _, _, hget⟩ := unregisterStep_member s c cs hr hc ho
    refine ⟨s1, hrun, unregisterStep_absent s1 c ?_⟩
    rw [hget]
    exact fun h => ((cs.nodup.mem_erase_iff).mp h).1 rfl
  refine ⟨?_, unregisterStep_absent s c, ?_⟩
  · by_cases hin : c ∈ GetRoomClients s c.RoomID
    · cases hr : s.rooms c.RoomID with
      | none => simp [GetRoomClients, hr] at hin
      | some cs =>
        have hc : c ∈ cs.elems := by
          simpa [GetRoomClients, hr] using hin
        cases hcl : (s.Send c).closed with
        | true =>
          rw [unregisterStep_closed s c cs hr hc hcl]
          rfl
        | false =>
          obtain ⟨s1, hrun, hagain⟩ := hmem cs hr hc hcl
          rw [hrun]
          exact hagain
    · rw [unregisterStep_absent s c hin]
      exact unregisterStep_absent s c hin
  · intro ho
    by_cases hin : c ∈ GetRoomClients s c.RoomID
    · cases hr : s.rooms c.RoomID with
      | none => simp [GetRoomClients, hr] at hin
      | some cs =>
        have hc : c ∈ cs.elems := by
          simpa [GetRoomClients, hr] using hin
        exact hmem cs hr hc ho
    · exact ⟨s, unregisterStep_absent s c hin, unregisterStep_absent s c hin⟩

/-- Witness of C4: alice and bob are in room 3 with open queues; unregistering alice
succeeds, and unregistering her again returns the same state. -/
theorem unregister_idempotent_witness :
    (twoInRoom.Send alice).closed = false ∧
    ∃ s1, unregisterStep twoInRoom alice = .ok s1 ∧ unregisterStep s1 alice = .ok s1 :=
  ⟨rfl, (unregister_idempotent twoInRoom alice).2.2 rfl⟩

/-! ## Register and unregister requests on one room -/

theorem GetRoomClients_congr (s s1 : HubState) (r : Int) (h : s1.rooms r = s.rooms r) :
    GetRoomClients s1 r = GetRoomClients s r := by
  simp [GetRoomClients, h]

theorem registerStep_members (s : HubState) (c d : Client) :
    d ∈ GetRoomClients (registerStep s c) c.RoomID ↔ d = c ∨ d ∈ GetRoomClients s c.RoomID := by
  unfold registerStep BroadcastToRoom GetRoomClients
  cases hr : s.rooms c.RoomID with
  | none => simp [setRoom, ClientSet.mem_insert, ClientSet.empty]
  | some cs => simp [setRoom, ClientSet.mem_insert]

theorem registerStep_rooms_other (s : HubState) (c : Client) (r1 : Int) (h : r1 ≠ c.RoomID) :
    (registerStep s c).rooms r1 = s.rooms r1 := by
  simp [registerStep, BroadcastToRoom, setRoom, h]

/-- The unregister step on a state in which the client, if its channel is closed, is not
in its room: it does not panic, removes exactly that client from its room, touches no
other room and no other channel, and closes no channel but that of the client. -/
theorem unregisterStep_safe (s : HubState) (c : Client)
    (hsafe : (s.Send c).closed = true → c ∉ GetRoomClients s c.RoomID) :
    ∃ s1, unregisterStep s c = .ok s1 ∧
      (∀ d, d ∈ GetRoomClients s1 c.RoomID ↔ d ≠ c ∧ d ∈ GetRoomClients s c.RoomID) ∧
      (∀ r1, r1 ≠ c.RoomID → s1.rooms r1 = s.rooms r1) ∧
      (∀ d, d ≠ c → s1.Send d = s.Send d) ∧
      (c ∈ GetRoomClients s c.RoomID → (s1.Send c).closed = true) ∧
      (c ∉ GetRoomClients s c.RoomID → s1 = s) := by
  by_cases hin : c ∈ GetRoomClients s c.RoomID
  · cases hr : s.rooms c.RoomID with
    | none => simp [GetRoomClients, hr] at hin
    | some cs =>
      have hget : GetRoomClients s c.RoomID = cs.elems := by
        simp [GetRoomClients, hr]
      have hc : c ∈ cs.elems := hget ▸ hin
      have ho : (s.Send c).closed = false := by
        cases hcl : (s.Send c).closed with
        | true => exact absurd hin (hsafe hcl)
        | false => rfl
      obtain ⟨s1, hrun, hsend, hrooms, hget1⟩ := unregisterStep_member s c cs hr hc ho
      refine ⟨s1, hrun, ?_, ?_, ?_, ?_, ?_⟩
      · intro d
        rw [hget1, hget, cs.nodup.mem_erase_iff]
      · intro r1 hr1
        rw [hrooms, setRoom_other _ _ _ _ hr1]
      · intro d hd
        rw [hsend, setSend_other _ _ _ _ hd]
      · intro _
        rw [hsend, setSend_same]
      · intro hnot
        exact absurd hin hnot
  · refine ⟨s, unregisterStep_absent s c hin, ?_, ?_, ?_, ?_, ?_⟩
    · intro d
      constructor
      · intro hd
        exact ⟨fun h => hin (h ▸ hd), hd⟩
      · exact fun h => h.2
    · intro _ _
      rfl
    · intro _ _
      rfl
    · intro h
      exact absurd h hin
    · intro _
      rfl

/-- The last request about a client decides whether the replay holds it. -/
theorem mem_replaySet (c : Client) :
    ∀ (reqs : List Request) (m : Finset Client),
      c ∈ replaySet reqs m ↔
        lastRequest c reqs = some (.register c) ∨ (lastRequest c reqs = none ∧ c ∈ m) := by
  intro reqs
  induction reqs with
  | nil =>
    intro m
    simp [replaySet, lastRequest]
  | cons q rest ih =>
    intro m
    cases q with
    | register d =>
      rw [replaySet, ih, lastRequest]
      cases hl : lastRequest c rest with
      | some q1 => simp
      | none =>
        by_cases hd : d = c
        · subst hd
          simp [Request.client]
        · have hcd : ¬ c = d := fun h => hd h.symm
          simp [Request.client, hd, hcd]
    | unregister d =>
      rw [replaySet, ih, lastRequest]
      cases hl : lastRequest c rest with
      | some q1 => simp
      | none =>
        by_cases hd : d = c
        · subst hd
          simp [Request.client]
        · have hcd : ¬ c = d := fun h => hd h.symm
          simp [Request.client, hd, hcd]

/-- The hub loop on requests about clients of room `r`, from a state in which every
closed client is outside its room and is not registered again: the run does not panic,
the final client set of `r` is the replay started from the present one, and the other
rooms are untouched. -/
theorem runRequests_replay (r : Int) :
    ∀ (reqs : List Request) (s : HubState),
      (∀ q ∈ reqs, q.client.RoomID = r) →
      noRegisterAfterUnregister reqs = true →
      (∀ c, (s.Send c).closed = true →
        c ∉ GetRoomClients s c.RoomID ∧ Request.register c ∉ reqs) →
      ∃ s1, runRequests reqs s = .ok s1 ∧
        (∀ c, c ∈ GetRoomClients s1 r ↔ c ∈ replaySet reqs (GetRoomClients s r).toFinset) ∧
        (∀ r1, r1 ≠ r → s1.rooms r1 = s.rooms r1) := by
  intro reqs
  induction reqs with
  | nil =>
    intro s _ _ _
    exact ⟨s, rfl, by simp [replaySet], fun _ _ => rfl⟩
  | cons q rest ih =>
    intro s hroom honce hsafe
    have hrest : ∀ q1 ∈ rest, q1.client.RoomID = r :=
      fun q1 h => hroom q1 (List.mem_cons_of_mem q h)
    cases q with
    | register c =>
      have hcr : c.RoomID = r := hroom (.register c) (List.mem_cons_self _ _)
      have honce1 : noRegisterAfterUnregister rest = true := by
        simpa [noRegisterAfterUnregister] using honce
      have hsafe1 : ∀ d, ((registerStep s c).Send d).closed = true →
          d ∉ GetRoomClients (registerStep s c) d.RoomID ∧ Request.register d ∉ rest := by
        intro d hd
        obtain ⟨hout, hno⟩ := hsafe d hd
        have hdc : d ≠ c := by
          intro h
          apply hno
          rw [h]
          exact List.mem_cons_self _ _
        refine ⟨?_, fun h => hno (List.mem_cons_of_mem _ h)⟩
        by_cases hrr : d.RoomID = c.RoomID
        · rw [hrr, registerStep_members]
          rintro (h | h)
          · exact hdc h
          · exact hout (hrr ▸ h)
        · rw [GetRoomClients_congr s _ _ (registerStep_rooms_other s c _ hrr)]
          exact hout
      obtain ⟨s1, hrun, hmem, hother⟩ := ih (registerStep s c) hrest honce1 hsafe1
      refine ⟨s1, ?_, ?_, ?_⟩
      · simp [runRequests, applyRequest, hrun]
      · intro d
        rw [hmem d, replaySet]
        have hset : (GetRoomClients (registerStep s c) r).toFinset
            = insert c (GetRoomClients s r).toFinset := by
          ext x
          rw [List.mem_toFinset, Finset.mem_insert, List.mem_toFinset, ← hcr,
            registerStep_members]
        rw [hset]
      · intro r1 hr1
        rw [hother r1 hr1, registerStep_rooms_other s c r1 (hcr ▸ hr1)]
    | unregister c =>
      have hcr : c.RoomID = r := hroom (.unregister c) (List.mem_cons_self _ _)
      have honce1 : Request.register c ∉ rest ∧ noRegisterAfterUnregister rest = true := by
        simpa [noRegisterAfterUnregister] using honce
      obtain ⟨s0, hstep, hmem0, hother0, hsend0, hclosed0, _⟩ :=
        unregisterStep_safe s c (fun h => (hsafe c h).1)
      have hsafe1 : ∀ d, (s0.Send d).closed = true →
          d ∉ GetRoomClients s0 d.RoomID ∧ Request.register d ∉ rest := by
        intro d hd
        by_cases hdc : d = c
        · subst hdc
          refine ⟨?_, honce1.1⟩
          rw [hmem0 d]
          exact fun h => h.1 rfl
        · rw [hsend0 d hdc] at hd
          obtain ⟨hout, hno⟩ := hsafe d hd
          refine ⟨?_, fun h => hno (List.mem_cons_of_mem _ h)⟩
          by_cases hrr : d.RoomID = c.RoomID
          · rw [hrr, hmem0 d]
            exact fun h => hout (hrr ▸ h.2)
          · rw [GetRoomClients_congr s _ _ (hother0 _ hrr)]
            exact hout
      obtain ⟨s1, hrun, hmem, hother⟩ := ih s0 hrest honce1.2 hsafe1
      refine ⟨s1, ?_, ?_, ?_⟩
      · simp [runRequests, applyRequest, hstep, hrun]
      · intro d
        rw [hmem d, replaySet]
        have hset : (GetRoomClients s0 r).toFinset = (GetRoomClients s r).toFinset.erase c := by
          ext x
          rw [List.mem_toFinset, Finset.mem_erase, List.mem_toFinset, ← hcr, hmem0 x]
        rw [hset]
      · intro r1 hr1
        rw [hother r1 hr1, hother0 r1 (hcr ▸ hr1)]

/-- C5 (amended): for every finite sequence of register and unregister requests on clients
of one room in which no client is registered again after a request to unregister it,
applied by the hub loop in submission order to a new hub whose clients have open queues,
the run does not panic and the room's final client set equals the replay of the sequence
on a plain set; a client is a member at the end if and only if its last request is a
register, and a client whose last request is not a register is in no room's client set. -/
theorem register_unregister_replay (caps : Client → Nat) (r : Int) (reqs : List Request)
    (hroom : ∀ q ∈ reqs, q.client.RoomID = r)
    (honce : noRegisterAfterUnregister reqs = true) :
    ∃ s1, runRequests reqs (NewHub caps) = .ok s1 ∧
      (∀ c, c ∈ GetRoomClients s1 r ↔ c ∈ replaySet reqs ∅) ∧
      (∀ c, c ∈ GetRoomClients s1 r ↔ lastRequest c reqs = some (.register c)) ∧
      (∀ c r1, lastRequest c reqs ≠ some (.register c) → c ∉ GetRoomClients s1 r1) := by
  obtain ⟨s1, hrun, hmem, hother⟩ := runRequests_replay r reqs (NewHub caps) hroom honce
    (by
      intro c hc
      simp [NewHub, Chan.make] at hc)
  have hreplay : ∀ c, c ∈ GetRoomClients s1 r ↔ c ∈ replaySet reqs ∅ := by
    intro c
    rw [hmem c]
    simp [GetRoomClients, NewHub]
  have hlast : ∀ c, c ∈ GetRoomClients s1 r ↔ lastRequest c reqs = some (.register c) := by
    intro c
    rw [hreplay c, mem_replaySet]
    simp
  refine ⟨s1, hrun, hreplay, hlast, ?_⟩
  intro c r1 hne hin
  by_cases hr1 : r1 = r
  · subst hr1
    exact hne ((hlast c).mp hin)
  · have hnone : s1.rooms r1 = none := by
      rw [hother r1 hr1]
      rfl
    simp [GetRoomClients, hnone] at hin

/-- C5, as stated, fails: alice is registered, unregistered (her queue is closed),
registered again and unregistered again; the replay on a plain set ends with the empty
set, but the hub loop panics at the fourth request with "close of closed channel". -/
theorem reregistered_client_panics_on_unregister :
    replaySet [.register alice, .unregister alice, .register alice, .unregister alice] ∅ = ∅ ∧
    panicOf (runRequests
        [.register alice, .unregister alice, .register alice, .unregister alice]
        (NewHub sendCap))
      = some Panic.closeOfClosedChannel := by
  decide

/-- Witness of C5 (amended): alice registers, bob registers, alice is unregistered; the hub
ends with bob alone in room 3, as the replay does. -/
theorem register_unregister_replay_witness :
    noRegisterAfterUnregister [.register alice, .register bob, .unregister alice] = true ∧
    ∃ s1, runRequests [.register alice, .register bob, .unregister alice]
        (NewHub sendCap) = .ok s1 ∧
      (bob ∈ GetRoomClients s1 3 ∧ alice ∉ GetRoomClients s1 3) := by
  refine ⟨by decide, ?_⟩
  obtain ⟨s1, hrun, _, hlast, _⟩ :=
    register_unregister_replay (fun _ => 256) 3
      [.register alice, .register bob, .unregister alice] (by decide) (by decide)
  refine ⟨s1, hrun, (hlast bob).mpr (by decide), ?_⟩
  rw [hlast alice]
  decide

/-! ## The last member leaves -/

theorem HubState.eta (s : HubState) (rooms : Int → Option ClientSet) (h : rooms = s.rooms) :
    ({ rooms := rooms, Send := s.Send } : HubState) = s := by
  cases s
  cases h
  rfl

/-- A broadcast to a room without members changes nothing. -/
theorem broadcastStep_no_members (s : HubState) (msg : BroadcastMessage)
    (h : GetRoomClients s msg.RoomID = []) : broadcastStep s msg = .ok s := by
  unfold broadcastStep
  cases hr : s.rooms msg.RoomID with
  | none => rfl
  | some cs =>
    have he : cs.elems = [] := by
      simpa [GetRoomClients, hr] using h
    simp only [he, broadcastLoop]
    exact congrArg Except.ok (HubState.eta s _ (setRoom_self _ _ _ hr))

theorem GetRoomClientCount_eq (s : HubState) (r : Int) :
    GetRoomClientCount s r = (GetRoomClients s r).length := by
  unfold GetRoomClientCount GetRoomClients
  cases s.rooms r <;> rfl

/-- The last leave on open queues: for every room r whose members are keyed under their own room id and
have open queues, and every order l in which all its members are unregistered one after
another, the unregister steps do not panic, afterwards `GetRoomClientCount r` returns
0, and a subsequent broadcast step to r (any payload, any excluded sender) returns the
very same state: membership map and all queues are as before it. -/
theorem last_leave_empties_room (r : Int) :
    ∀ (l : List Client) (s : HubState), l.Nodup →
      (∀ c, c ∈ GetRoomClients s r ↔ c ∈ l) →
      (∀ c ∈ l, c.RoomID = r) →
      (∀ c ∈ l, (s.Send c).closed = false) →
      ∃ s1, runRequests (l.map Request.unregister) s = .ok s1 ∧
        GetRoomClientCount s1 r = 0 ∧
        ∀ p sender, broadcastStep s1 { RoomID := r, Message := p, Sender := sender } = .ok s1 := by
  intro l
  induction l with
  | nil =>
    intro s _ hcover _ _
    have hnil : GetRoomClients s r = [] := by
      apply List.eq_nil_iff_forall_not_mem.mpr
      intro c hc
      simpa using (hcover c).mp hc
    refine ⟨s, rfl, ?_, ?_⟩
    · rw [GetRoomClientCount_eq, hnil]
      rfl
    · intro p sender
      exact broadcastStep_no_members s _ hnil
  | cons a rest ih =>
    intro s hnd hcover hkey hopen
    have hna : a ∉ rest := (List.nodup_cons.mp hnd).1
    have har : a.RoomID = r := hkey a (List.mem_cons_self _ _)
    have hao : (s.Send a).closed = false := hopen a (List.mem_cons_self _ _)
    obtain ⟨s0, hstep, hmem0, _, hsend0, _, _⟩ :=
      unregisterStep_safe s a (fun h => by rw [hao] at h; cases h)
    obtain ⟨s1, hrun, hcount, hquiet⟩ := ih s0 (List.nodup_cons.mp hnd).2
      (by
        intro c
        rw [← har, hmem0 c, har, hcover c]
        constructor
        · rintro ⟨hca, hc⟩
          rcases List.mem_cons.mp hc with h | h
          · exact absurd h hca
          · exact h
        · intro hc
          exact ⟨fun h => hna (h ▸ hc), List.mem_cons_of_mem _ hc⟩)
      (fun c hc => hkey c (List.mem_cons_of_mem _ hc))
      (by
        intro c hc
        rw [hsend0 c (fun h => hna (h ▸ hc))]
        exact hopen c (List.mem_cons_of_mem _ hc))
    refine ⟨s1, ?_, hcount, hquiet⟩
    simp [runRequests, applyRequest, hstep, hrun]

set_option maxRecDepth 100000 in
/-- C6 is broken by the code: after `fillAndCloseRun` the only member of room 3 is alice,
whose queue `SendMessage` has closed without unregistering her (the defect of C3);
unregistering her, the last member, panics with "close of closed channel", so the room
is never emptied and no count of 0 is ever returned. -/
theorem last_leave_panics_on_closed_member :
    GetRoomClients closedFullState 3 = [alice] ∧
    (closedFullState.Send alice).closed = true ∧
    panicOf (runRequests [.unregister alice] closedFullState)
      = some Panic.closeOfClosedChannel := by
  decide!

/-- Example of the last leave on open queues: alice and bob, the members of room 3, leave in the order bob,
alice; the count is 0 afterwards and a broadcast to room 3 returns the same state. -/
theorem last_leave_empties_room_witness :
    GetRoomClients twoInRoom 3 = [alice, bob] ∧
    ∃ s1, runRequests [.unregister bob, .unregister alice] twoInRoom = .ok s1 ∧
      GetRoomClientCount s1 3 = 0 ∧
      broadcastStep s1 { RoomID := 3, Message := hello, Sender := none } = .ok s1 := by
  refine ⟨rfl, ?_⟩
  obtain ⟨s1, hrun, hcount, hquiet⟩ :=
    last_leave_empties_room 3 [bob, alice] twoInRoom (by decide)
      (by
        intro c
        show c ∈ [alice, bob] ↔ c ∈ [bob, alice]
        simp [or_comm])
      (by decide) (fun _ _ => rfl)
  exact ⟨s1, hrun, hcount, hquiet hello none⟩

/-! ## The read pump -/

/-- C7 (amended): for every client c and every inbound event of type "message" with
content s, when the store succeeds and assigns id i and `json.Marshal` encodes the
envelope as `bytes`, the read pump hands the stamped message to the store once, leaves
all queues alone and submits exactly one broadcast: room c.RoomID, no excluded sender,
payload the encoding of the envelope (type "message", room_id c.RoomID, message with id
i, room c.RoomID, user c.UserID, name c.Username, content s, created_at the stamp time).
When the hub loop takes that broadcast in a state where the members of the room have
open queues, the step enqueues the payload on every member whose queue is not full, c
itself included when c is such a member; a member whose queue is full is evicted
instead: its queue is closed with its contents untouched and it is no longer in the
room's client set. -/
theorem message_event_is_rebroadcast (db : Int → Int → String → Time → Option Int)
    (marshal : WebSocketMessage → Except String Bytes) (now : Time) (s : HubState)
    (c : Client) (wsMsg : WebSocketMessage) (i : Int) (bytes : Bytes)
    (htype : wsMsg.Typ = "message")
    (hstore : db c.RoomID c.UserID wsMsg.Content now = some i)
    (hjson : marshal
      { Typ := "message", RoomID := c.RoomID,
        Message := some { ID := i, RoomID := c.RoomID, UserID := c.UserID,
                          Username := c.Username, Content := wsMsg.Content, CreatedAt := now },
        Content := "", Error := "", UserID := 0, Username := "" } = .ok bytes) :
    (∃ res, readPumpEvent (saveMessageToDB db) marshal now s c wsMsg = .ok res ∧
      res.submitted = [{ RoomID := c.RoomID, Message := bytes, Sender := none }] ∧
      res.stored = [{ ID := 0, RoomID := c.RoomID, UserID := c.UserID, Username := c.Username,
                      Content := wsMsg.Content, CreatedAt := now }] ∧
      res.state = s) ∧
    (∀ (s2 : HubState) (cs : ClientSet), s2.rooms c.RoomID = some cs →
      (∀ m ∈ cs.elems, (s2.Send m).closed = false) →
      ∃ s3, broadcastStep s2 { RoomID := c.RoomID, Message := bytes, Sender := none } = .ok s3 ∧
        (∀ m ∈ cs.elems, (s2.Send m).buf.length < (s2.Send m).cap →
          s3.Send m = { s2.Send m with buf := (s2.Send m).buf ++ [bytes] }) ∧
        (c ∈ cs.elems → (s2.Send c).buf.length < (s2.Send c).cap →
          s3.Send c = { s2.Send c with buf := (s2.Send c).buf ++ [bytes] }) ∧
        (∀ m ∈ cs.elems, (s2.Send m).cap ≤ (s2.Send m).buf.length →
          s3.Send m = { s2.Send m with closed := true } ∧
          m ∉ GetRoomClients s3 c.RoomID)) := by
  constructor
  · refine ⟨⟨s, _, _⟩, ?_, rfl, rfl, rfl⟩
    unfold readPumpEvent
    simp only [htype, if_true, saveMessageToDB, hstore]
    simp only [WebSocketMessage.zero, hjson]
  · intro s2 cs hroom hopen
    obtain ⟨s3, cs1, hrun, hrooms, hsend, hmem⟩ :=
      broadcastStep_open s2 { RoomID := c.RoomID, Message := bytes, Sender := none } cs hroom
        (fun m hm _ => hopen m hm)
    have hall : ∀ m ∈ cs.elems, (s2.Send m).buf.length < (s2.Send m).cap →
        s3.Send m = { s2.Send m with buf := (s2.Send m).buf ++ [bytes] } := by
      intro m hm hlen
      rw [hsend m]
      simp [hm, deliver, hlen]
    have hget : GetRoomClients s3 c.RoomID = cs1.elems := by
      simp [GetRoomClients, hrooms, setRoom]
    refine ⟨s3, hrun, hall, hall c, ?_⟩
    intro m hm hfull
    have hnot : ¬ (s2.Send m).buf.length < (s2.Send m).cap := Nat.not_lt.mpr hfull
    constructor
    · rw [hsend m]
      simp [hm, deliver, hnot]
    · rw [hget, hmem]
      simp [hm, hnot]

set_option maxRecDepth 100000 in
/-- C7, as stated, fails: in `bobFullState` alice and bob are the members of room 3 and
bob's queue is open and full; alice's event "hi" (store id 101) is submitted as one
broadcast, and the broadcast step evicts bob instead of enqueuing the payload on him. -/
theorem rebroadcast_skips_full_member :
    GetRoomClients bobFullState 3 = [alice, bob] ∧
    bobFullState.Send bob = { buf := List.replicate 256 hello, cap := 256, closed := false } ∧
    submittedOf (readPumpEvent (saveMessageToDB store101) sampleMarshal 1000 bobFullState
        alice hiEvent)
      = [{ RoomID := 3, Message := hiBytes, Sender := none }] ∧
    queueAfter (broadcastStep bobFullState { RoomID := 3, Message := hiBytes, Sender := none })
        bob
      = some { buf := List.replicate 256 hello, cap := 256, closed := true } ∧
    membersAfter (broadcastStep bobFullState { RoomID := 3, Message := hiBytes, Sender := none })
        3
      = some [alice] := by
  decide!

set_option maxRecDepth 100000 in
/-- Witness of C7 (amended): user 7 "alice" in room 3 sends "hi", the store assigns 101;
one broadcast for room 3 carries the encoded envelope, and with alice and bob in the room
(open queues with room) both get it, the sender alice included; when bob's queue is full
instead, alice gets it and bob is closed and removed. -/
theorem message_event_is_rebroadcast_witness :
    sampleMarshal hiEnvelope = .ok hiBytes ∧
    submittedOf (readPumpEvent (saveMessageToDB store101) sampleMarshal 1000 twoInRoom
        alice hiEvent)
      = [{ RoomID := 3, Message := hiBytes, Sender := none }] ∧
    (∃ s3, broadcastStep twoInRoom { RoomID := 3, Message := hiBytes, Sender := none } = .ok s3 ∧
      s3.Send alice = { buf := [hiBytes], cap := 256, closed := false } ∧
      s3.Send bob = { buf := [hiBytes], cap := 256, closed := false }) ∧
    (∃ s3, broadcastStep bobFullState { RoomID := 3, Message := hiBytes, Sender := none }
        = .ok s3 ∧
      s3.Send alice = { buf := [hiBytes], cap := 256, closed := false } ∧
      (s3.Send bob).closed = true ∧ bob ∉ GetRoomClients s3 3) := by
  have h := message_event_is_rebroadcast store101 sampleMarshal 1000 twoInRoom alice hiEvent
    101 hiBytes rfl rfl rfl
  refine ⟨rfl, ?_, ?_, ?_⟩
  · obtain ⟨res, hres, hsub, _, _⟩ := h.1
    rw [hres]
    exact hsub
  · obtain ⟨s3, hrun, hall, hself, _⟩ := h.2 twoInRoom aliceAndBob rfl (fun _ _ => rfl)
    exact ⟨s3, hrun, hself (by decide) (by decide), hall bob (by decide) (by decide)⟩
  · have hroom : bobFullState.rooms 3 = some aliceAndBob := by
      apply congrArg some
      apply ClientSet.ext_elems
      decide!
    obtain ⟨s3, hrun, _, hself, hfull⟩ := h.2 bobFullState aliceAndBob hroom (by decide!)
    obtain ⟨hbob, hout⟩ := hfull bob (by decide) (by decide!)
    refine ⟨s3, hrun, ?_, ?_, hout⟩
    · rw [hself (by decide) (by decide!)]
      decide!
    · rw [hbob]

/-- C8 (amended): for every client c whose outbound queue is open and not full and every
inbound "message" event for which the store fails, the read pump submits no broadcast,
enqueues the encoded envelope of type "error" at the tail of c's own queue and touches no
other queue, c's queue stays open, and the membership map is unchanged (c remains a
member of its room). -/
theorem store_failure_reports_to_sender (saveMessage : Message → Except String Message)
    (marshal : WebSocketMessage → Except String Bytes) (now : Time) (s : HubState)
    (c : Client) (wsMsg : WebSocketMessage) (err : String) (data : Bytes)
    (htype : wsMsg.Typ = "message")
    (hfail : saveMessage
      { ID := 0, RoomID := c.RoomID, UserID := c.UserID, Username := c.Username,
        Content := wsMsg.Content, CreatedAt := now } = .error err)
    (hjson : marshal errorMsg = .ok data)
    (hopen : (s.Send c).closed = false)
    (hfree : (s.Send c).buf.length < (s.Send c).cap) :
    errorMsg.Typ = "error" ∧
    ∃ res, readPumpEvent saveMessage marshal now s c wsMsg = .ok res ∧
      res.submitted = [] ∧
      res.state.Send c = { s.Send c with buf := (s.Send c).buf ++ [data] } ∧
      (res.state.Send c).closed = false ∧
      (∀ d, d ≠ c → res.state.Send d = s.Send d) ∧
      res.state.rooms = s.rooms := by
  have hrun : readPumpEvent saveMessage marshal now s c wsMsg = .ok
      { state := { rooms := s.rooms,
                   Send := setSend s.Send c
                     { buf := (s.Send c).buf ++ [data], cap := (s.Send c).cap,
                       closed := (s.Send c).closed } },
        stored := [{ ID := 0, RoomID := c.RoomID, UserID := c.UserID, Username := c.Username,
                     Content := wsMsg.Content, CreatedAt := now }],
        submitted := [] } := by
    unfold readPumpEvent SendMessage
    simp only [htype, if_true, hfail, hjson, Chan.trySend_room _ _ hopen hfree]
  refine ⟨rfl, _, hrun, rfl, ?_, ?_, ?_, rfl⟩
  · simp [setSend_same]
  · simp [setSend_same, hopen]
  · intro d hd
    simp [setSend_other _ _ _ _ hd]

set_option maxRecDepth 100000 in
/-- C8, as stated, fails: alice is in room 3 with an open, full queue; her "message"
event meets a failing store, and `SendMessage` closes her queue instead of enqueuing the
error envelope: the queue holds what it held and is closed. -/
theorem store_failure_closes_full_queue :
    GetRoomClients aliceFullState 3 = [alice] ∧
    aliceFullState.Send alice
      = { buf := List.replicate 256 hello, cap := 256, closed := false } ∧
    pumpQueue (readPumpEvent (saveMessageToDB storeDown) sampleMarshal 1000 aliceFullState
        alice hiEvent) alice
      = some { buf := List.replicate 256 hello, cap := 256, closed := true } := by
  decide!

/-- Witness of C8 (amended): alice in room 3 with an open, empty queue of capacity 256; the
store fails, and the encoded error envelope is the one payload on her queue. -/
theorem store_failure_reports_to_sender_witness :
    (twoInRoom.Send alice).closed = false ∧
    ∃ res, readPumpEvent (saveMessageToDB storeDown) sampleMarshal 1000 twoInRoom alice hiEvent
        = .ok res ∧
      res.submitted = [] ∧
      res.state.Send alice = { buf := [[101, 114, 114, 111, 114]], cap := 256, closed := false } ∧
      res.state.Send bob = twoInRoom.Send bob := by
  obtain ⟨_, res, hres, hsub, hself, _, hothers, _⟩ :=
    store_failure_reports_to_sender (saveMessageToDB storeDown) sampleMarshal 1000 twoInRoom
      alice hiEvent "sql: query failed" [101, 114, 114, 111, 114] rfl rfl rfl rfl
      (by decide : 0 < 256)
  exact ⟨rfl, res, hres, hsub, hself, hothers bob (by decide)⟩

/-! ## Join and leave notices -/

/-- C9 is broken by the code: alice registers at a new hub; she is then the member of
room 3, and her queue is still empty, no "join" envelope on it.  In every state the
register step leaves every queue as it was, because `BroadcastToRoom` has an empty body. -/
theorem register_enqueues_no_join :
    GetRoomClients (registerStep (NewHub sendCap) alice) 3 = [alice] ∧
    (registerStep (NewHub sendCap) alice).Send alice
      = { buf := [], cap := 256, closed := false } ∧
    ∀ (s : HubState) (c : Client), (registerStep s c).Send = s.Send := by
  refine ⟨by decide, by decide, fun _ _ => rfl⟩

/-- C10 is broken by the code: alice and bob are in room 3 with open queues, alice is
unregistered; bob remains and his queue is still empty, no "leave" envelope on it.  In
every state an unregister step that does not panic leaves the queue of every other client
as it was. -/
theorem unregister_enqueues_no_leave :
    GetRoomClients twoInRoom 3 = [alice, bob] ∧
    membersAfter (unregisterStep twoInRoom alice) 3 = some [bob] ∧
    queueAfter (unregisterStep twoInRoom alice) bob
      = some { buf := [], cap := 256, closed := false } ∧
    ∀ (s s1 : HubState) (c d : Client), unregisterStep s c = .ok s1 → d ≠ c →
      s1.Send d = s.Send d := by
  refine ⟨by decide, by decide, by decide, ?_⟩
  intro s s1 c d hrun hd
  by_cases hin : c ∈ GetRoomClients s c.RoomID
  · cases hr : s.rooms c.RoomID with
    | none => simp [GetRoomClients, hr] at hin
    | some cs =>
      have hc : c ∈ cs.elems := by
        simpa [GetRoomClients, hr] using hin
      cases hcl : (s.Send c).closed with
      | true =>
        rw [unregisterStep_closed s c cs hr hc hcl] at hrun
        cases hrun
      | false =>
        obtain ⟨s2, hrun2, hsend, _, _⟩ := unregisterStep_member s c cs hr hc hcl
        rw [hrun2] at hrun
        cases hrun
        rw [hsend, setSend_other _ _ _ _ hd]
  · rw [unregisterStep_absent s c hin] at hrun
    cases hrun
    rfl

/-! ## Empty rooms -/

set_option maxRecDepth 100000 in
/-- C11 is broken by the code: alice registers at a new hub, 256 broadcasts fill her
queue and one more evicts her; no step panics, and afterwards room 3 is still a key of
the membership map with an empty client set (`GetRoomClientCount` reports 0).  The
unregister path on the same client does delete the key: after register and unregister
room 3 is not in the map. -/
theorem eviction_leaves_empty_room :
    panicOf (runActions sampleMarshal evictLastRun (NewHub sendCap)) = none ∧
    roomEntryAfter (runActions sampleMarshal evictLastRun (NewHub sendCap)) 3
      = some (some []) ∧
    countAfter (runActions sampleMarshal evictLastRun (NewHub sendCap)) 3 = some 0 ∧
    roomEntryAfter
        (runActions sampleMarshal [.register alice, .unregister alice] (NewHub sendCap)) 3
      = some none := by
  refine ⟨?_, ?_, ?_, ?_⟩
  · decide!
  · decide!
  · decide!
  · decide!

/-! ## Events the read pump ignores, and the identity it stamps -/

/-- The handling of an event whose type is not "message": nothing is stored, submitted
or enqueued. -/
theorem readPumpEvent_ignored (saveMessage : Message → Except String Message)
    (marshal : WebSocketMessage → Except String Bytes) (now : Time) (s : HubState)
    (c : Client) (wsMsg : WebSocketMessage) (htype : wsMsg.Typ ≠ "message") :
    readPumpEvent saveMessage marshal now s c wsMsg
      = .ok { state := s, stored := [], submitted := [] } := by
  unfold readPumpEvent
  rw [if_neg htype]

/-- C13: for every inbound event whose type is not exactly "message", the handling of
that event by the read pump hands nothing to the store, submits no broadcast and leaves
the state (every queue, the membership map) as it is, and the read loop continues: the
pump behaves on the event followed by further reads exactly as on the further reads
alone, the next read is handled with its own effects, and in particular a "message"
event read after the ignored one is stored and broadcast, the pump unregistering its
client only when the reads end. -/
theorem other_event_types_are_ignored (saveMessage : Message → Except String Message)
    (marshal : WebSocketMessage → Except String Bytes) (now : Time) (s : HubState)
    (c : Client) (wsMsg : WebSocketMessage) (rest : List (Time × WebSocketMessage))
    (htype : wsMsg.Typ ≠ "message") :
    (∃ res, readPumpEvent saveMessage marshal now s c wsMsg = .ok res ∧
      res.stored = [] ∧ res.submitted = [] ∧ res.state = s) ∧
    ReadPump saveMessage marshal c ((now, wsMsg) :: rest) s
      = ReadPump saveMessage marshal c rest s ∧
    (∀ (ev : Time × WebSocketMessage),
      ReadPump saveMessage marshal c ((now, wsMsg) :: ev :: rest) s =
        match readPumpEvent saveMessage marshal ev.1 s c ev.2 with
        | .error e => .error e
        | .ok res =>
          match ReadPump saveMessage marshal c rest res.state with
          | .error e => .error e
          | .ok run =>
            .ok { state := run.state, stored := res.stored ++ run.stored,
                  submitted := res.submitted ++ run.submitted,
                  unregistered := run.unregistered }) ∧
    (∀ (now2 : Time) (e2 : WebSocketMessage) (msg1 : Message) (bytes : Bytes),
      e2.Typ = "message" →
      saveMessage { ID := 0, RoomID := c.RoomID, UserID := c.UserID, Username := c.Username,
                    Content := e2.Content, CreatedAt := now2 } = .ok msg1 →
      marshal { Typ := "message", RoomID := c.RoomID, Message := some msg1, Content := "",
                Error := "", UserID := 0, Username := "" } = .ok bytes →
      ReadPump saveMessage marshal c [(now, wsMsg), (now2, e2)] s =
        .ok { state := s,
              stored := [{ ID := 0, RoomID := c.RoomID, UserID := c.UserID,
                           Username := c.Username, Content := e2.Content, CreatedAt := now2 }],
              submitted := [{ RoomID := c.RoomID, Message := bytes, Sender := none }],
              unregistered := [c] }) := by
  have h := readPumpEvent_ignored saveMessage marshal now s c wsMsg htype
  have hskip : ∀ l, ReadPump saveMessage marshal c ((now, wsMsg) :: l) s
      = ReadPump saveMessage marshal c l s := by
    intro l
    rw [ReadPump, h]
    dsimp only
    cases ReadPump saveMessage marshal c l s with
    | error e => rfl
    | ok run => rfl
  refine ⟨⟨_, h, rfl, rfl, rfl⟩, hskip rest, ?_, ?_⟩
  · intro ev
    rw [hskip (ev :: rest), ReadPump]
  · intro now2 e2 msg1 bytes htype2 hsave hjson
    have hev : readPumpEvent saveMessage marshal now2 s c e2 = .ok
        { state := s,
          stored := [{ ID := 0, RoomID := c.RoomID, UserID := c.UserID,
                       Username := c.Username, Content := e2.Content, CreatedAt := now2 }],
          submitted := [{ RoomID := c.RoomID, Message := bytes, Sender := none }] } := by
      unfold readPumpEvent
      simp only [htype2, if_true, hsave]
      simp only [WebSocketMessage.zero, hjson]
    rw [hskip [(now2, e2)], ReadPump]
    dsimp only
    rw [hev]
    rfl

/-- Witness of C13: events of type "join", "leave", "error" and "" from a client are
ignored, whatever identity fields they carry, and the loop goes on: alice's "hi" read
after an ignored "join" event is stored and broadcast to room 3. -/
theorem other_event_types_are_ignored_witness :
    submittedOf (readPumpEvent (saveMessageToDB store101) sampleMarshal 1000 twoInRoom alice
      joinEvent) = [] ∧
    (∀ t ∈ ["join", "leave", "error", ""],
      ReadPump (saveMessageToDB store101) sampleMarshal alice
          [(1000, { joinEvent with Typ := t }), (2000, hiEvent)] twoInRoom
        = ReadPump (saveMessageToDB store101) sampleMarshal alice [(2000, hiEvent)]
          twoInRoom) ∧
    runSubmitted (ReadPump (saveMessageToDB store101) sampleMarshal alice
        [(1000, joinEvent), (2000, hiEvent)] twoInRoom)
      = [{ RoomID := 3, Message := hiBytes, Sender := none }] ∧
    runStored (ReadPump (saveMessageToDB store101) sampleMarshal alice
        [(1000, joinEvent), (2000, hiEvent)] twoInRoom)
      = [{ ID := 0, RoomID := 3, UserID := 7, Username := "alice", Content := "hi",
           CreatedAt := 2000 }] := by
  have hjoin := other_event_types_are_ignored (saveMessageToDB store101) sampleMarshal 1000
    twoInRoom alice joinEvent [] (by decide)
  have hrun := hjoin.2.2.2 2000 hiEvent
    { ID := 101, RoomID := 3, UserID := 7, Username := "alice", Content := "hi",
      CreatedAt := 2000 } hiBytes rfl rfl rfl
  refine ⟨?_, ?_, ?_, ?_⟩
  · obtain ⟨res, hres, _, hsub, _⟩ := hjoin.1
    rw [hres]
    exact hsub
  · intro t ht
    have hne : ({ joinEvent with Typ := t } : WebSocketMessage).Typ ≠ "message" := by
      show t ≠ "message"
      revert t
      decide
    exact (other_event_types_are_ignored (saveMessageToDB store101) sampleMarshal 1000
      twoInRoom alice { joinEvent with Typ := t } [(2000, hiEvent)] hne).2.1
  · rw [hrun]
    rfl
  · rw [hrun]
    rfl

/-- C12: for every client c and any two inbound "message" events with the same content,
whatever their room_id, user_id, username, message and error fields, the read pump does
the same at the same stamp time: same message handed to the store, same envelope
submitted, same effect on the queues.  The message handed to the store carries
c.RoomID, c.UserID and c.Username, every submitted broadcast is for room c.RoomID with no
excluded sender and is the encoding of an envelope of type "message" whose room_id is
c.RoomID and whose message carries c.RoomID, c.UserID, c.Username, the content and the
stamp time; and the handling returns whenever the store succeeds or the queue of c is
open. -/
theorem stamped_identity_is_the_session (saveMessage : Message → Except String Message)
    (db : Int → Int → String → Time → Option Int)
    (marshal : WebSocketMessage → Except String Bytes) (now : Time) (s : HubState)
    (c : Client) (e1 e2 : WebSocketMessage)
    (h1 : e1.Typ = "message") (h2 : e2.Typ = "message") (hc : e1.Content = e2.Content) :
    readPumpEvent saveMessage marshal now s c e1
      = readPumpEvent saveMessage marshal now s c e2 ∧
    (∀ res, readPumpEvent (saveMessageToDB db) marshal now s c e1 = .ok res →
      res.stored = [{ ID := 0, RoomID := c.RoomID, UserID := c.UserID, Username := c.Username,
                      Content := e1.Content, CreatedAt := now }] ∧
      ∀ b ∈ res.submitted, b.RoomID = c.RoomID ∧ b.Sender = none ∧
        ∃ i, marshal
          { Typ := "message", RoomID := c.RoomID,
            Message := some { ID := i, RoomID := c.RoomID, UserID := c.UserID,
                              Username := c.Username, Content := e1.Content, CreatedAt := now },
            Content := "", Error := "", UserID := 0, Username := "" } = .ok b.Message) ∧
    ((s.Send c).closed = false ∨ (db c.RoomID c.UserID e1.Content now).isSome = true →
      ∃ res, readPumpEvent (saveMessageToDB db) marshal now s c e1 = .ok res) := by
  refine ⟨?_, ?_, ?_⟩
  · unfold readPumpEvent
    rw [if_pos h1, if_pos h2, hc]
  · intro res hres
    unfold readPumpEvent at hres
    simp only [h1, if_true, saveMessageToDB] at hres
    cases hdb : db c.RoomID c.UserID e1.Content now with
    | none =>
      simp only [hdb] at hres
      cases hsend : SendMessage marshal s c errorMsg with
      | error e => simp [hsend] at hres
      | ok r =>
        simp only [hsend, Except.ok.injEq] at hres
        subst hres
        exact ⟨rfl, by simp⟩
    | some i =>
      simp only [hdb, WebSocketMessage.zero] at hres
      cases hm : marshal
          { Typ := "message", RoomID := c.RoomID,
            Message := some { ID := i, RoomID := c.RoomID, UserID := c.UserID,
                              Username := c.Username, Content := e1.Content, CreatedAt := now },
            Content := "", Error := "", UserID := 0, Username := "" } with
      | error err =>
        simp only [hm, Except.ok.injEq] at hres
        subst hres
        exact ⟨rfl, by simp⟩
      | ok bytes =>
        simp only [hm, Except.ok.injEq] at hres
        subst hres
        refine ⟨rfl, ?_⟩
        intro b hb
        rw [List.mem_singleton] at hb
        subst hb
        exact ⟨rfl, rfl, i, hm⟩
  · intro h
    unfold readPumpEvent
    simp only [h1, if_true, saveMessageToDB]
    cases hdb : db c.RoomID c.UserID e1.Content now with
    | some i =>
      simp only [WebSocketMessage.zero]
      cases marshal _ with
      | error err => exact ⟨_, rfl⟩
      | ok bytes => exact ⟨_, rfl⟩
    | none =>
      have ho : (s.Send c).closed = false := by
        rcases h with h | h
        · exact h
        · simp [hdb] at h
      unfold SendMessage
      cases marshal errorMsg with
      | error err => exact ⟨_, rfl⟩
      | ok data =>
        by_cases hlen : (s.Send c).buf.length < (s.Send c).cap
        · simp only [Chan.trySend_room _ _ ho hlen]
          exact ⟨_, rfl⟩
        · simp only [Chan.trySend_full _ _ ho hlen, Chan.close_open _ ho]
          exact ⟨_, rfl⟩

/-- Witness of C12: alice (user 7, room 3) sends "hi" once plainly and once in an event
that claims user 99 "mallory" in room 9; both are handled alike, and the broadcast
submitted is the one for room 3 carrying alice's message. -/
theorem stamped_identity_is_the_session_witness :
    forgedEvent.Typ = "message" ∧ forgedEvent.UserID ≠ hiEvent.UserID ∧
    readPumpEvent (saveMessageToDB store101) sampleMarshal 1000 twoInRoom alice forgedEvent
      = readPumpEvent (saveMessageToDB store101) sampleMarshal 1000 twoInRoom alice hiEvent ∧
    submittedOf
        (readPumpEvent (saveMessageToDB store101) sampleMarshal 1000 twoInRoom alice forgedEvent)
      = [{ RoomID := 3, Message := hiBytes, Sender := none }] :=
  ⟨rfl, by decide,
    (stamped_identity_is_the_session (saveMessageToDB store101) store101 sampleMarshal 1000
      twoInRoom alice forgedEvent hiEvent rfl rfl rfl).1,
    by decide⟩

/-! ## Timing constants -/

/-- C14: the ping period `(pongWait * 9) / 10`, in exact integer nanoseconds, is 54
seconds and strictly below `pongWait`, which is 60 seconds; `writeWait` is 10 seconds
and `maxMessageSize` is 512.  The product `pongWait * 9` stays below 2^63. -/
theorem ping_period_is_54_seconds :
    pingPeriod = 54 * Second ∧ pingPeriod < pongWait ∧ pongWait = 60 * Second ∧
    writeWait = 10 * Second ∧ maxMessageSize = 512 ∧
    Second = 1000000000 ∧ pongWait * 9 < 2 ^ 63 := by
  decide

/-! ## The write pump -/

/-- The register case mutates the membership map only between `Lock` and `Unlock`. -/
theorem registerEvents_under_lock (s : HubState) (c : Client) :
    mutatesUnderLock .free (registerEvents s c) = true := by
  unfold registerEvents
  cases s.rooms c.RoomID <;> rfl

/-- The unregister case mutates the membership map only between `Lock` and `Unlock`. -/
theorem unregisterEvents_under_lock (s : HubState) (c : Client) :
    mutatesUnderLock .free (unregisterEvents s c) = true := by
  unfold unregisterEvents
  cases s.rooms c.RoomID with
  | none => rfl
  | some cs =>
    by_cases hc : c ∈ cs.elems
    · simp only [hc, if_true]
      cases (s.Send c).close with
      | error e => rfl
      | ok ch =>
        by_cases hlen : (cs.erase c).len = 0
        · simp only [hlen, if_true]
          rfl
        · simp only [hlen, if_false]
          rfl
    · simp only [hc, if_false]
      rfl

set_option maxRecDepth 100000 in
/-- C15 is broken by the code: the register and unregister cases mutate the membership
map only while `h.mu` is held exclusively, but the broadcast case takes `RLock` and its
default branch deletes from the room's map.  With alice in room 3 and her queue full, the
broadcast step does `RLock`, a delete, `RUnlock`: the delete happens under the shared
lock, at a moment when a reader (`GetRoomClients`, `GetRoomClientCount`) is admitted. -/
theorem broadcast_mutates_under_shared_lock :
    (∀ (s : HubState) (c : Client), mutatesUnderLock .free (registerEvents s c) = true) ∧
    (∀ (s : HubState) (c : Client), mutatesUnderLock .free (unregisterEvents s c) = true) ∧
    GetRoomClients aliceFullState 3 = [alice] ∧
    broadcastEvents aliceFullState { RoomID := 3, Message := hello, Sender := none }
      = [.rLock, .mutate, .rUnlock] ∧
    mutatesUnderLock .free
      (broadcastEvents aliceFullState { RoomID := 3, Message := hello, Sender := none })
      = false ∧
    mutatesBesideReader .free
      (broadcastEvents aliceFullState { RoomID := 3, Message := hello, Sender := none })
      = true ∧
    membersAfter
      (broadcastStep aliceFullState { RoomID := 3, Message := hello, Sender := none }) 3
      = some [] := by
  refine ⟨registerEvents_under_lock, unregisterEvents_under_lock, ?_, ?_, ?_, ?_, ?_⟩
  · decide!
  · decide!
  · decide!
  · decide!
  · decide!

/-! ## Members are open and stored under their own room -/

/-- The register step keeps the members well placed and open, when the new client's
queue is open. -/
theorem registerStep_inv (s : HubState) (c : Client)
    (hwf : ∀ r d, d ∈ GetRoomClients s r → d.RoomID = r ∧ (s.Send d).closed = false)
    (hopen : (s.Send c).closed = false) :
    ∀ r d, d ∈ GetRoomClients (registerStep s c) r →
      d.RoomID = r ∧ ((registerStep s c).Send d).closed = false := by
  intro r d hd
  by_cases hr : r = c.RoomID
  · subst hr
    rcases (registerStep_members s c d).mp hd with h | h
    · subst h
      exact ⟨rfl, hopen⟩
    · exact hwf _ d h
  · rw [GetRoomClients_congr s _ _ (registerStep_rooms_other s c r hr)] at hd
    exact hwf r d hd

/-- The unregister step on well placed, open members: no panic, the members stay well
placed and open, nobody new is a member, and only a member gets closed. -/
theorem unregisterStep_inv (s : HubState) (c : Client)
    (hwf : ∀ r d, d ∈ GetRoomClients s r → d.RoomID = r ∧ (s.Send d).closed = false) :
    ∃ s0, unregisterStep s c = .ok s0 ∧
      (∀ r d, d ∈ GetRoomClients s0 r → d.RoomID = r ∧ (s0.Send d).closed = false) ∧
      (∀ r d, d ∈ GetRoomClients s0 r → d ∈ GetRoomClients s r) ∧
      (∀ d, (s0.Send d).closed = true →
        (s.Send d).closed = true ∨ d ∈ GetRoomClients s d.RoomID) := by
  obtain ⟨s0, hstep, hmem0, hother0, hsend0, _, hsame⟩ :=
    unregisterStep_safe s c (fun hcl hin => by
      have := (hwf _ c hin).2
      rw [hcl] at this
      cases this)
  have hsub : ∀ r d, d ∈ GetRoomClients s0 r → d ≠ c ∧ d ∈ GetRoomClients s r := by
    intro r d hd
    by_cases hr : r = c.RoomID
    · subst hr
      exact (hmem0 d).mp hd
    · rw [GetRoomClients_congr s _ _ (hother0 r hr)] at hd
      refine ⟨?_, hd⟩
      intro hdc
      subst hdc
      exact hr (hwf r d hd).1.symm
  refine ⟨s0, hstep, ?_, fun r d hd => (hsub r d hd).2, ?_⟩
  · intro r d hd
    obtain ⟨hdc, hold⟩ := hsub r d hd
    rw [hsend0 d hdc]
    exact hwf r d hold
  · intro d hd
    by_cases hdc : d = c
    · subst hdc
      by_cases hin : d ∈ GetRoomClients s d.RoomID
      · exact Or.inr hin
      · rw [hsame hin] at hd
        exact Or.inl hd
    · rw [hsend0 d hdc] at hd
      exact Or.inl hd

/-- The broadcast step on well placed, open members: no panic, the members stay well
placed and open, nobody new is a member, and only a member gets closed. -/
theorem broadcastStep_inv (s : HubState) (msg : BroadcastMessage)
    (hwf : ∀ r d, d ∈ GetRoomClients s r → d.RoomID = r ∧ (s.Send d).closed = false) :
    ∃ s1, broadcastStep s msg = .ok s1 ∧
      (∀ r d, d ∈ GetRoomClients s1 r → d.RoomID = r ∧ (s1.Send d).closed = false) ∧
      (∀ r d, d ∈ GetRoomClients s1 r → d ∈ GetRoomClients s r) ∧
      (∀ d, (s1.Send d).closed = true →
        (s.Send d).closed = true ∨ d ∈ GetRoomClients s d.RoomID) := by
  cases hroom : s.rooms msg.RoomID with
  | none =>
    have hrun : broadcastStep s msg = .ok s := by
      simp [broadcastStep, hroom]
    exact ⟨s, hrun, hwf, fun _ _ h => h, fun _ h => Or.inl h⟩
  | some cs =>
    have hget : GetRoomClients s msg.RoomID = cs.elems := by
      simp [GetRoomClients, hroom]
    obtain ⟨s1, cs1, hrun, hrooms, hsend, hmem⟩ :=
      broadcastStep_open s msg cs hroom (fun c hc _ => (hwf _ c (hget ▸ hc)).2)
    have hget1 : GetRoomClients s1 msg.RoomID = cs1.elems := by
      simp [GetRoomClients, hrooms, setRoom]
    have hsub : ∀ r d, d ∈ GetRoomClients s1 r → d ∈ GetRoomClients s r := by
      intro r d hd
      by_cases hr : r = msg.RoomID
      · subst hr
        rw [hget1, hmem] at hd
        rw [hget]
        exact (List.mem_filter.mp hd).1
      · have : s1.rooms r = s.rooms r := by
          rw [hrooms, setRoom_other _ _ _ _ hr]
        rw [GetRoomClients_congr s _ _ this] at hd
        exact hd
    refine ⟨s1, hrun, ?_, hsub, ?_⟩
    · intro r d hd
      have hold := hsub r d hd
      refine ⟨(hwf r d hold).1, ?_⟩
      rw [hsend d]
      by_cases hvis : d ∈ cs.elems ∧ msg.Sender ≠ some d
      · rw [if_pos hvis]
        have hr : r = msg.RoomID := by
          rw [← (hwf r d hold).1, (hwf _ d (hget ▸ hvis.1)).1]
        subst hr
        rw [hget1, hmem] at hd
        have hfree : (s.Send d).buf.length < (s.Send d).cap := by
          have h2 := (List.mem_filter.mp hd).2
          simp only [decide_eq_true_eq] at h2
          by_contra hfull
          exact h2 ⟨hvis.1, hvis.2, hfull⟩
        simp only [deliver, hfree, if_true]
        exact (hwf _ d hold).2
      · rw [if_neg hvis]
        exact (hwf r d hold).2
    · intro d hd
      rw [hsend d] at hd
      by_cases hvis : d ∈ cs.elems ∧ msg.Sender ≠ some d
      · right
        have hin : d ∈ GetRoomClients s msg.RoomID := hget ▸ hvis.1
        rw [(hwf _ d hin).1]
        exact hin
      · rw [if_neg hvis] at hd
        exact Or.inl hd

/-- A run of hub steps in which no client is registered twice, from a state whose
members are well placed and open and in which no member and no closed client is
registered again: the run does not panic and ends with well placed, open members. -/
theorem runActions_inv (marshal : WebSocketMessage → Except String Bytes) :
    ∀ (acts : List Action) (s : HubState),
      (∀ a ∈ acts, a.isHubStep = true) →
      (registrations acts).Nodup →
      (∀ r d, d ∈ GetRoomClients s r → d.RoomID = r ∧ (s.Send d).closed = false) →
      (∀ d, (s.Send d).closed = true ∨ d ∈ GetRoomClients s d.RoomID →
        d ∉ registrations acts) →
      ∃ s1, runActions marshal acts s = .ok s1 ∧
        ∀ r d, d ∈ GetRoomClients s1 r → d.RoomID = r ∧ (s1.Send d).closed = false := by
  intro acts
  induction acts with
  | nil =>
    intro s _ _ hwf _
    exact ⟨s, rfl, hwf⟩
  | cons a rest ih =>
    intro s hhub honce hwf hfresh
    have hrest : ∀ b ∈ rest, b.isHubStep = true := fun b hb => hhub b (List.mem_cons_of_mem a hb)
    cases a with
    | register c =>
      have hnd : c ∉ registrations rest ∧ (registrations rest).Nodup := by
        simpa [registrations] using honce
      have hopen : (s.Send c).closed = false := by
        cases hcl : (s.Send c).closed with
        | false => rfl
        | true =>
          exact absurd (by simp [registrations]) (hfresh c (Or.inl hcl))
      obtain ⟨s1, hrun, hwf1⟩ := ih (registerStep s c) hrest hnd.2
        (registerStep_inv s c hwf hopen)
        (by
          intro d hd
          by_cases hdc : d = c
          · subst hdc
            exact hnd.1
          · have hold : (s.Send d).closed = true ∨ d ∈ GetRoomClients s d.RoomID := by
              rcases hd with h | h
              · exact Or.inl h
              · right
                by_cases hr : d.RoomID = c.RoomID
                · rw [hr] at h ⊢
                  rcases (registerStep_members s c d).mp h with h1 | h1
                  · exact absurd h1 hdc
                  · exact h1
                · rw [GetRoomClients_congr s _ _ (registerStep_rooms_other s c _ hr)] at h
                  exact h
            have := hfresh d hold
            simp only [registrations, List.mem_cons, not_or] at this
            exact this.2)
      exact ⟨s1, by simp [runActions, applyAction, hrun], hwf1⟩
    | unregister c =>
      obtain ⟨s0, hstep, hwf0, hsub0, hcl0⟩ := unregisterStep_inv s c hwf
      have hreg : registrations (Action.unregister c :: rest) = registrations rest := rfl
      obtain ⟨s1, hrun, hwf1⟩ := ih s0 hrest (hreg ▸ honce) hwf0
        (by
          intro d hd
          rw [← hreg]
          apply hfresh d
          rcases hd with h | h
          · rcases hcl0 d h with h1 | h1
            · exact Or.inl h1
            · exact Or.inr h1
          · exact Or.inr (hsub0 _ d h))
      exact ⟨s1, by simp [runActions, applyAction, hstep, hrun], hwf1⟩
    | broadcast msg =>
      obtain ⟨s0, hstep, hwf0, hsub0, hcl0⟩ := broadcastStep_inv s msg hwf
      have hreg : registrations (Action.broadcast msg :: rest) = registrations rest := rfl
      obtain ⟨s1, hrun, hwf1⟩ := ih s0 hrest (hreg ▸ honce) hwf0
        (by
          intro d hd
          rw [← hreg]
          apply hfresh d
          rcases hd with h | h
          · rcases hcl0 d h with h1 | h1
            · exact Or.inl h1
            · exact Or.inr h1
          · exact Or.inr (hsub0 _ d h))
      exact ⟨s1, by simp [runActions, applyAction, hstep, hrun], hwf1⟩
    | sendMessage c m =>
      have := hhub (.sendMessage c m) (List.mem_cons_self _ _)
      simp [Action.isHubStep] at this
    | writePump c =>
      have := hhub (.writePump c) (List.mem_cons_self _ _)
      simp [Action.isHubStep] at this

/-- C17: every run of register, unregister and broadcast steps from the empty hub in
which each client is registered at most once, with an open queue, and nothing but the
hub closes queues, does not panic, and in the state it reaches every client c in the
client set of a room r has c.RoomID = r and an open outbound queue; so a client whose
queue is closed is in no room's client set. -/
theorem hub_members_are_open (marshal : WebSocketMessage → Except String Bytes)
    (caps : Client → Nat) (acts : List Action)
    (hhub : ∀ a ∈ acts, a.isHubStep = true)
    (honce : (registrations acts).Nodup) :
    ∃ s, runActions marshal acts (NewHub caps) = .ok s ∧
      (∀ r c, c ∈ GetRoomClients s r → c.RoomID = r ∧ (s.Send c).closed = false) ∧
      (∀ c, (s.Send c).closed = true → ∀ r, c ∉ GetRoomClients s r) := by
  obtain ⟨s, hrun, hwf⟩ := runActions_inv marshal acts (NewHub caps) hhub honce
    (by
      intro r d hd
      simp [GetRoomClients, NewHub] at hd)
    (by
      intro d hd
      rcases hd with h | h
      · simp [NewHub, Chan.make] at h
      · simp [GetRoomClients, NewHub] at h)
  refine ⟨s, hrun, hwf, ?_⟩
  intro c hcl r hin
  have := (hwf r c hin).2
  rw [hcl] at this
  cases this

/-- Witness of C17: alice and bob register once each, a broadcast reaches both, alice is
unregistered; the run ends with bob alone in room 3, his queue open, and alice, whose
queue the hub closed, in no room. -/
theorem hub_members_are_open_witness :
    (registrations hubOnlyRun).Nodup ∧
    ∃ s, runActions sampleMarshal hubOnlyRun (NewHub sendCap) = .ok s ∧
      (∀ c ∈ GetRoomClients s 3, c.RoomID = 3 ∧ (s.Send c).closed = false) ∧
      ((s.Send alice).closed = true → alice ∉ GetRoomClients s 3) := by
  refine ⟨by decide, ?_⟩
  obtain ⟨s, hrun, hwf, hclosed⟩ :=
    hub_members_are_open sampleMarshal sendCap hubOnlyRun (by decide) (by decide)
  exact ⟨s, hrun, fun c hc => hwf 3 c hc, fun h => hclosed alice h 3⟩

/-! ## What a broadcast leaves alone -/

/-- One round of the broadcast loop touches no channel but that of the visited client,
and not even that one when the client is the excluded sender. -/
theorem broadcastClient_frame (msg : BroadcastMessage) (st st1 : ClientSet × (Client → Chan))
    (client : Client) (h : broadcastClient msg st client = .ok st1) :
    ∀ c, c ≠ client ∨ msg.Sender = some c → st1.2 c = st.2 c := by
  intro c hc
  unfold broadcastClient at h
  by_cases hs : msg.Sender = some client
  · rw [if_pos hs] at h
    cases h
    rfl
  · have hcc : c ≠ client := by
      rcases hc with h1 | h1
      · exact h1
      · intro h2
        exact hs (h2 ▸ h1)
    rw [if_neg hs] at h
    cases hsend : (st.2 client).trySend msg.Message with
    | error e => simp [hsend] at h
    | ok o =>
      cases o with
      | some ch =>
        simp only [hsend, Except.ok.injEq] at h
        subst h
        exact setSend_other _ _ _ _ hcc
      | none =>
        simp only [hsend] at h
        cases hclose : (st.2 client).close with
        | error e => simp [hclose] at h
        | ok ch =>
          simp only [hclose, Except.ok.injEq] at h
          subst h
          exact setSend_other _ _ _ _ hcc

/-- The broadcast loop, however far it gets, touches no channel of a client that is not
among the keys it visits, and never the channel of the excluded sender. -/
theorem broadcastLoopUpTo_frame (msg : BroadcastMessage) :
    ∀ (l : List Client) (st : ClientSet × (Client → Chan)) (c : Client),
      c ∉ l ∨ msg.Sender = some c → (broadcastLoopUpTo msg l st).1.2 c = st.2 c := by
  intro l
  induction l with
  | nil =>
    intro st c _
    rfl
  | cons a rest ih =>
    intro st c hc
    unfold broadcastLoopUpTo
    cases hstep : broadcastClient msg st a with
    | error e => rfl
    | ok st1 =>
      simp only []
      have hrest : c ∉ rest ∨ msg.Sender = some c := by
        rcases hc with h | h
        · exact Or.inl (fun hin => h (List.mem_cons_of_mem a hin))
        · exact Or.inr h
      rw [ih st1 c hrest]
      apply broadcastClient_frame msg st st1 a hstep
      rcases hc with h | h
      · exact Or.inl (fun hca => h (hca ▸ List.mem_cons_self _ _))
      · exact Or.inr h

/-- The broadcast loop returns exactly when the loop followed up to a panic meets none,
and then with the same state. -/
theorem broadcastLoop_eq_upTo (msg : BroadcastMessage) :
    ∀ (l : List Client) (st : ClientSet × (Client → Chan)),
      broadcastLoop msg l st =
        match (broadcastLoopUpTo msg l st).2 with
        | none => .ok (broadcastLoopUpTo msg l st).1
        | some e => .error e := by
  intro l
  induction l with
  | nil =>
    intro st
    rfl
  | cons a rest ih =>
    intro st
    unfold broadcastLoop broadcastLoopUpTo
    cases broadcastClient msg st a with
    | error e => rfl
    | ok st1 => exact ih st1

/-- The broadcast step returns exactly when the step followed up to a panic meets none,
and then with the same state. -/
theorem broadcastStep_eq_upTo (s : HubState) (msg : BroadcastMessage) :
    broadcastStep s msg =
      match (broadcastStepUpTo s msg).2 with
      | none => .ok (broadcastStepUpTo s msg).1
      | some e => .error e := by
  unfold broadcastStep broadcastStepUpTo
  cases s.rooms msg.RoomID with
  | none => rfl
  | some cs =>
    simp only []
    rw [broadcastLoop_eq_upTo msg cs.elems (cs, s.Send)]
    cases (broadcastLoopUpTo msg cs.elems (cs, s.Send)).2 with
    | none => rfl
    | some e => rfl

/-- The broadcast step, however far it gets, leaves every other room, the channel of
every client outside the room and the channel of the excluded sender as they were. -/
theorem broadcastStepUpTo_frame (s : HubState) (msg : BroadcastMessage) :
    (∀ r1, r1 ≠ msg.RoomID → (broadcastStepUpTo s msg).1.rooms r1 = s.rooms r1) ∧
    (∀ c, c ∉ GetRoomClients s msg.RoomID ∨ msg.Sender = some c →
      (broadcastStepUpTo s msg).1.Send c = s.Send c) := by
  unfold broadcastStepUpTo
  cases hroom : s.rooms msg.RoomID with
  | none => exact ⟨fun _ _ => rfl, fun _ _ => rfl⟩
  | some cs =>
    refine ⟨fun r1 hr1 => setRoom_other _ _ _ _ hr1, ?_⟩
    intro c hc
    have hget : GetRoomClients s msg.RoomID = cs.elems := by
      simp [GetRoomClients, hroom]
    rw [hget] at hc
    exact broadcastLoopUpTo_frame msg cs.elems (cs, s.Send) c hc

/-- C18: for every hub state, room r, payload p and optional excluded sender, the
broadcast step for room r leaves unchanged the client set of every room other than r, the
queue (contents, capacity, open or closed) of every client that is not a member of room
r, and the queue of the excluded sender.  This holds for the state the step returns, and
also for the state it had reached when a panic stopped it. -/
theorem broadcast_touches_only_its_room (s : HubState) (r : Int) (p : Bytes)
    (sender : Option Client) :
    (∀ s1, broadcastStep s { RoomID := r, Message := p, Sender := sender } = .ok s1 →
      (∀ r1, r1 ≠ r → s1.rooms r1 = s.rooms r1) ∧
      (∀ c, c ∉ GetRoomClients s r → s1.Send c = s.Send c) ∧
      (∀ x, sender = some x → s1.Send x = s.Send x)) ∧
    (∀ r1, r1 ≠ r →
      (broadcastStepUpTo s { RoomID := r, Message := p, Sender := sender }).1.rooms r1
        = s.rooms r1) ∧
    (∀ c, c ∉ GetRoomClients s r →
      (broadcastStepUpTo s { RoomID := r, Message := p, Sender := sender }).1.Send c
        = s.Send c) ∧
    (∀ x, sender = some x →
      (broadcastStepUpTo s { RoomID := r, Message := p, Sender := sender }).1.Send x
        = s.Send x) ∧
    (broadcastStep s { RoomID := r, Message := p, Sender := sender } =
      match (broadcastStepUpTo s { RoomID := r, Message := p, Sender := sender }).2 with
      | none => .ok (broadcastStepUpTo s { RoomID := r, Message := p, Sender := sender }).1
      | some e => .error e) := by
  have hframe := broadcastStepUpTo_frame s { RoomID := r, Message := p, Sender := sender }
  have heq := broadcastStep_eq_upTo s { RoomID := r, Message := p, Sender := sender }
  refine ⟨?_, hframe.1, fun c hc => hframe.2 c (Or.inl hc),
    fun x hx => hframe.2 x (Or.inr hx), heq⟩
  intro s1 hrun
  rw [heq] at hrun
  cases hp : (broadcastStepUpTo s { RoomID := r, Message := p, Sender := sender }).2 with
  | some e => simp [hp] at hrun
  | none =>
    simp only [hp, Except.ok.injEq] at hrun
    subst hrun
    exact ⟨hframe.1, fun c hc => hframe.2 c (Or.inl hc), fun x hx => hframe.2 x (Or.inr hx)⟩

set_option maxRecDepth 100000 in
/-- Witness of C18: in `bobFullState` a broadcast to room 3 with alice excluded evicts
bob, and alice's queue is as before; a broadcast to the same room from the state where
alice's queue is closed panics, and up to the panic no queue has changed. -/
theorem broadcast_touches_only_its_room_witness :
    (∃ s1, broadcastStep bobFullState { RoomID := 3, Message := hello, Sender := some alice }
        = .ok s1 ∧ s1.Send alice = bobFullState.Send alice ∧
      (s1.Send bob).closed = true) ∧
    (broadcastStepUpTo closedFullState { RoomID := 3, Message := hello, Sender := none }).2
      = some Panic.sendOnClosedChannel ∧
    (broadcastStepUpTo closedFullState { RoomID := 3, Message := hello, Sender := none }).1.Send
      bob = closedFullState.Send bob := by
  refine ⟨?_, by decide!, ?_⟩
  · have hok : panicOf
        (broadcastStep bobFullState { RoomID := 3, Message := hello, Sender := some alice })
        = none := by decide!
    have hbob : (queueAfter
        (broadcastStep bobFullState { RoomID := 3, Message := hello, Sender := some alice })
        bob).map Chan.closed = some true := by decide!
    cases hrun : broadcastStep bobFullState
        { RoomID := 3, Message := hello, Sender := some alice } with
    | error e => simp [hrun, panicOf] at hok
    | ok s1 =>
      refine ⟨s1, rfl, ?_, ?_⟩
      · exact ((broadcast_touches_only_its_room bobFullState 3 hello (some alice)).1
          s1 hrun).2.2 alice rfl
      · simpa [hrun, queueAfter] using hbob
  · exact (broadcast_touches_only_its_room closedFullState 3 hello none).2.2.1 bob
      (by decide!)

/-! ## The write pump among the other goroutines -/

end GoChat
